import Mathlib

/-!
Verification development for the FrameUi document/style core.

The Rust sources are shallowly embedded: pure functions become Lean
functions, in-place mutation becomes explicit state passing, and the
external collaborators (the `selectors` matching engine, the CSS parser,
the yoga layout engine, the bincode codec, the url crate) appear as
function parameters, specified only at their interface boundary.
`f32` values are modelled by `F32` (NaN or an exact rational); the core
under verification never performs floating-point arithmetic on them, it
only stores and copies them, so the carrier is irrelevant to the claims.
-/

namespace FrameUi


/-- Model of `f32` scalars as stored by the core: either NaN or an exact
numeric value.  The core only copies these values (all arithmetic happens
inside the external yoga engine). -/
inductive F32 : Type
| nan : F32
| val (q : ℚ) : F32
deriving DecidableEq, Repr, Inhabited

/-- `yoga::Value` (yoga/lib.rs): a CSS length/percent/auto/undefined value.
The `f32` payloads are carried as exact rationals (they are only ever
copied by the code under verification). -/
inductive Value : Type
| px (v : ℚ)
| percent (v : ℚ)
| auto
| undefined
deriving DecidableEq, Repr, Inhabited

/-- An RGBA color, as the `(u8, u8, u8, u8)` tuples of style/lib.rs.
Components are only copied, never computed with, so `Nat` is a faithful
carrier. -/
structure Color where
  r : Nat
  g : Nat
  b : Nat
  a : Nat
deriving DecidableEq, Repr

/-- `ComputedStyle` (style/lib.rs lines 27-36). -/
@[ext]
structure ComputedStyle where
  width : Value
  height : Value
  background_color : Color
  margin_top : Value
  margin_bottom : Value
  margin_left : Value
  margin_right : Value
deriving DecidableEq, Repr

/-- `impl Default for ComputedStyle` (style/lib.rs lines 38-50). -/
def ComputedStyle.default : ComputedStyle :=
  { width := Value.auto
    height := Value.auto
    background_color := ⟨0, 0, 0, 0⟩
    margin_top := Value.px 0
    margin_bottom := Value.px 0
    margin_left := Value.px 0
    margin_right := Value.px 0 }

instance : Inhabited ComputedStyle := ⟨ComputedStyle.default⟩

/-- `RenderStyle` (style/lib.rs lines 6-13). -/
@[ext]
structure RenderStyle where
  width : F32
  height : F32
  top : F32
  left : F32
  background_color : Color
deriving DecidableEq, Repr

/-- `impl Default for RenderStyle` (style/lib.rs lines 15-25): geometry is
NaN until a layout pass fills it in. -/
def RenderStyle.default : RenderStyle :=
  { width := F32.nan, height := F32.nan, top := F32.nan, left := F32.nan
    background_color := ⟨0, 0, 0, 0⟩ }

instance : Inhabited RenderStyle := ⟨RenderStyle.default⟩

/-- `Declaration` (style/lib.rs lines 157-166): the closed property set. -/
inductive Declaration : Type
| Width (v : Value)
| Height (v : Value)
| BackgroundColor (r g b a : Nat)
| MarginTop (v : Value)
| MarginBottom (v : Value)
| MarginLeft (v : Value)
| MarginRight (v : Value)
deriving DecidableEq, Repr

/-- `Declaration::apply` (style/lib.rs lines 168-179): overwrite the one
computed-style field this declaration names. -/
def Declaration.apply (d : Declaration) (c : ComputedStyle) : ComputedStyle :=
  match d with
  | .Width v => { c with width := v }
  | .Height v => { c with height := v }
  | .BackgroundColor r g b a => { c with background_color := ⟨r, g, b, a⟩ }
  | .MarginTop v => { c with margin_top := v }
  | .MarginBottom v => { c with margin_bottom := v }
  | .MarginLeft v => { c with margin_left := v }
  | .MarginRight v => { c with margin_right := v }

/-- `StyleRule` (style/lib.rs lines 102-107).  The selector list is drawn
from an arbitrary type `S`: selector parsing and matching live in the
external `selectors` crate and enter the embedding as parameters. -/
structure StyleRule (S : Type) where
  selectors : S
  properties : List Declaration
deriving DecidableEq, Repr

/-- `StyleRule::apply` (style/lib.rs lines 110-125): if the selector list
matches the element (decided by the external matching engine `m`), apply
every declaration in order. -/
def StyleRule.apply {S : Type} (m : S → Bool) (r : StyleRule S) (c : ComputedStyle) :
    ComputedStyle :=
  if m r.selectors then r.properties.foldl (fun acc d => d.apply acc) c else c

/-- `StyleSheet` (style/lib.rs lines 58-61): rules in source order. -/
structure StyleSheet (S : Type) where
  rules : List (StyleRule S)
deriving DecidableEq, Repr

/-- `StyleSheet::apply` (style/lib.rs lines 87-93): apply every rule, in
source order, to the element's computed style. -/
def StyleSheet.apply {S : Type} (m : S → Bool) (sheet : StyleSheet S)
    (c : ComputedStyle) : ComputedStyle :=
  sheet.rules.foldl (fun acc r => r.apply m acc) c

/-! ### Diagnostics and the checkpoint gate (compiler/main.rs) -/

/-- Diagnostic severity levels, as used by `DiagnosticPrinter::add_diagnostic`
(compiler/main.rs lines 49-62). -/
inductive Level : Type
| bug
| error
| warn
| info
deriving DecidableEq, Repr

/-- `DiagnosticPrinter` (compiler/main.rs lines 13-29), restricted to the
only field `checkpoint` observes: the `should_exit` flag.  (The codespan
writer, config and file table affect only the printed output.) -/
structure DiagnosticPrinter where
  should_exit : Bool
deriving DecidableEq, Repr

/-- `DiagnosticPrinter::new` (main.rs lines 21-28): `should_exit` starts false. -/
def DiagnosticPrinter.new : DiagnosticPrinter := ⟨false⟩

/-- `DiagnosticPrinter::add_diagnostic` (main.rs lines 46-170), restricted to
its effect on `should_exit`: `Level::Bug` and `Level::Error` set the flag,
`Level::Warn` and `Level::Info` leave it unchanged. -/
def DiagnosticPrinter.add_diagnostic (p : DiagnosticPrinter) (lvl : Level) :
    DiagnosticPrinter :=
  match lvl with
  | .bug => ⟨true⟩
  | .error => ⟨true⟩
  | .warn => p
  | .info => p

/-- `DiagnosticPrinter::checkpoint` (main.rs lines 172-178): fails exactly
when `should_exit` is set. -/
def DiagnosticPrinter.checkpoint (p : DiagnosticPrinter) : Except Unit Unit :=
  if p.should_exit then Except.error () else Except.ok ()

/-- Modelled from the spec: the compiler core that calls the reporter's
`checkpoint` is absent from the sources (only its callers, compiler/main.rs
and compiler/style.rs, are present).  Per spec §4.3 the checkpoint is
"called once at the end of compilation".  `compile_checkpoint` replays the
severity levels of every diagnostic the compile recorded into the printer,
in order, and then makes that single end-of-compile checkpoint call; the
printer itself is the real one from main.rs. -/
def compile_checkpoint (recorded : List Level) : Except Unit Unit :=
  (recorded.foldl DiagnosticPrinter.add_diagnostic DiagnosticPrinter.new).checkpoint

/-! ### The document model (dom/lib.rs)

The element tree is the `indextree::Arena` of dom/lib.rs: nodes addressed by
index, with parent/sibling/child links.  The external collaborators appear
as parameters: selector matching (`selectors` crate) as a predicate over the
tree view it can observe, selector parsing as `String → Option S`, the yoga
layout engine as a function from the pushed node properties to geometry. -/

/-- `ElementData` (dom/lib.rs lines 68-78); `RootElement`/`UnstyledElement`
are unit structs. -/
inductive ElementData : Type
| Root
| Unstyled
deriving DecidableEq, Repr

/-- The style properties this program pushes into an external yoga node
handle via `set_width`/`set_height`/`set_margin` (yoga/lib.rs).  A field is
`none` while the program has never pushed a value for it, i.e. the handle
still has whatever state the external engine created it with. -/
@[ext]
structure YogaProps where
  width : Option Value := none
  height : Option Value := none
  margin_top : Option Value := none
  margin_bottom : Option Value := none
  margin_left : Option Value := none
  margin_right : Option Value := none
deriving DecidableEq, Repr

/-- A freshly created external handle (`yoga::Node::new()`): nothing pushed. -/
def YogaProps.fresh : YogaProps := {}

/-- `Element` (dom/lib.rs lines 12-24).  `yg`, `computed` and `render` are
`#[serde(skip)]` in the source: they are transient, not persisted. -/
@[ext]
structure Element (S : Type) where
  data : ElementData
  classes : List String
  id : Option String
  style : List (StyleRule S)
  yg : YogaProps
  computed : ComputedStyle
  render : RenderStyle
deriving DecidableEq, Repr

/-- `Element::new` (dom/lib.rs lines 27-37). -/
def Element.new (S : Type) (data : ElementData) : Element S :=
  { data := data
    classes := []
    id := none
    style := []
    yg := YogaProps.fresh
    computed := ComputedStyle.default
    render := RenderStyle.default }

/-- `Element::prepare_yoga` (dom/lib.rs lines 39-44): push the computed
width and height — and only those — into the element's yoga handle. -/
def Element.prepare_yoga {S : Type} (e : Element S) : Element S :=
  { e with yg := { e.yg with
      width := some e.computed.width
      height := some e.computed.height } }

/-- The geometry read back from a yoga node handle after a layout pass
(`get_width`/`get_height`/`get_top`/`get_left`, yoga/lib.rs). -/
structure Geometry where
  width : F32
  height : F32
  top : F32
  left : F32
deriving DecidableEq, Repr

/-- `Element::update_render` (dom/lib.rs lines 46-54): copy the layout
engine's resolved geometry `g` and the computed background color into the
render style. -/
def Element.update_render {S : Type} (g : Geometry) (e : Element S) : Element S :=
  { e with render := { width := g.width
                       height := g.height
                       top := g.top
                       left := g.left
                       background_color := e.computed.background_color } }

/-- One slot of the `indextree::Arena`: the five navigation links, the
removal flag, and the element payload. -/
@[ext]
structure ArenaNode (S : Type) where
  parent : Option Nat
  previous_sibling : Option Nat
  next_sibling : Option Nat
  first_child : Option Nat
  last_child : Option Nat
  removed : Bool
  elem : Element S
deriving DecidableEq, Repr

/-- The node arena: slots addressed by index (`indextree::NodeId`). -/
abbrev Arena (S : Type) := List (ArenaNode S)

/-- `Arena::new_node`: push a fresh unlinked slot, returning its id. -/
def Arena.new_node {S : Type} (a : Arena S) (e : Element S) : Arena S × Nat :=
  (a ++ [⟨none, none, none, none, none, false, e⟩], a.length)

/-- `NodeId::append` (indextree), as used by the compiler on freshly created
nodes: attach `child` as the last child of `parent`. -/
def Arena.append_child {S : Type} (a : Arena S) (parent child : Nat) : Arena S :=
  match a[parent]? with
  | none => a
  | some pn =>
    match pn.last_child with
    | none =>
      let a1 := a.set parent { pn with first_child := some child, last_child := some child }
      match a1[child]? with
      | none => a1
      | some cn => a1.set child { cn with parent := some parent }
    | some l =>
      let a1 := a.set parent { pn with last_child := some child }
      let a2 := match a1[l]? with
        | none => a1
        | some ln => a1.set l { ln with next_sibling := some child }
      match a2[child]? with
      | none => a2
      | some cn => a2.set child { cn with parent := some parent, previous_sibling := some l }

/-- What the selector-matching engine can observe of one node, read off the
`selectors::Element` impl for `MatchingElement` (dom/lib.rs lines 198-339):
parent/sibling/first-child navigation, the element kind (local name /
`is_root`), classes and id.  Matching cannot see computed or render state. -/
structure MatchNode : Type where
  parent : Option Nat
  previous_sibling : Option Nat
  next_sibling : Option Nat
  first_child : Option Nat
  data : ElementData
  classes : List String
  id : Option String
deriving DecidableEq, Repr

/-- The whole-tree view the matching engine works on. -/
def matchView {S : Type} (a : Arena S) : List MatchNode :=
  a.map (fun n => ⟨n.parent, n.previous_sibling, n.next_sibling, n.first_child,
    n.elem.data, n.elem.classes, n.elem.id⟩)

/-- The structural content of one arena slot that neither `compute_style`
nor `query_selector` ever changes: links, removal flag, and the persistent
element fields. -/
structure StructNode (S : Type) where
  parent : Option Nat
  previous_sibling : Option Nat
  next_sibling : Option Nat
  first_child : Option Nat
  last_child : Option Nat
  removed : Bool
  data : ElementData
  classes : List String
  id : Option String
  style : List (StyleRule S)
deriving DecidableEq, Repr

/-- The structural view of the whole arena. -/
def structView {S : Type} (a : Arena S) : List (StructNode S) :=
  a.map (fun n => ⟨n.parent, n.previous_sibling, n.next_sibling, n.first_child,
    n.last_child, n.removed, n.elem.data, n.elem.classes, n.elem.id, n.elem.style⟩)

/-- What the external layout engine sees of the arena: the tree links and
the properties this program pushed into each node's handle. -/
def yogaView {S : Type} (a : Arena S) : List (Option Nat × YogaProps) :=
  a.map (fun n => (n.parent, n.elem.yg))

/-- `YGDirection` (yoga). -/
inductive Direction : Type
| inherit
| ltr
| rtl
deriving DecidableEq, Repr

/-- The external yoga layout computation (`calculate_layout` followed by the
per-node `get_*` reads): a function of the pushed node properties, the
viewport, and the direction, yielding each node's resolved geometry. -/
def LayoutFn : Type :=
  List (Option Nat × YogaProps) → F32 → F32 → Direction → Nat → Geometry

/-- `CompiledDocument` (dom/lib.rs lines 80-86).  The `RwLock` around the
arena only serializes access and is dropped in this single-threaded model. -/
@[ext]
structure CompiledDocument (S : Type) where
  version : Nat
  elements : Arena S
  root : Nat
  stylesheet : StyleSheet S
deriving DecidableEq, Repr

/-- The chain of siblings starting at `o` (following `next_sibling`),
fuel-bounded; only ids whose slot exists are emitted. -/
def childList {S : Type} (a : Arena S) : Nat → Option Nat → List Nat
  | 0, _ => []
  | _ + 1, none => []
  | f + 1, some c =>
    match a[c]? with
    | none => []
    | some cn => c :: childList a f cn.next_sibling

/-- The pre-order descendants of `i` (indextree `NodeId::descendants`),
fuel-bounded. -/
def subtree {S : Type} (a : Arena S) : Nat → Nat → List Nat
  | 0, _ => []
  | f + 1, i =>
    match a[i]? with
    | none => []
    | some n => i :: (childList a (f + 1) n.first_child).flatMap (subtree a f)

/-- `self.root.descendants(&arena)` as collected by `compute_style`
(dom/lib.rs line 125). -/
def CompiledDocument.descendants {S : Type} (d : CompiledDocument S) : List Nat :=
  subtree d.elements (d.elements.length + 1) d.root

/-- Replace slot `i` by `f` of its current value (no-op on a missing slot;
the source indexes the arena directly and the traversal only produces
existing ids). -/
def update_at {S : Type} (a : Arena S) (i : Nat) (f : ArenaNode S → ArenaNode S) :
    Arena S :=
  match a[i]? with
  | none => a
  | some n => a.set i (f n)

/-- The per-node body of `compute_style`'s first loop (dom/lib.rs lines
126-141): run the cascade against the given tree view, store the new
computed style, and `prepare_yoga`. -/
def cascadeFn {S : Type} (m : S → List MatchNode → Nat → Bool) (sheet : StyleSheet S)
    (v : List MatchNode) (i : Nat) (n : ArenaNode S) : ArenaNode S :=
  let c := StyleSheet.apply (fun s => m s v i) sheet n.elem.computed
  { n with elem := Element.prepare_yoga { n.elem with computed := c } }

/-- One iteration of `compute_style`'s first loop: the matching engine reads
the current arena. -/
def cascade_step {S : Type} (m : S → List MatchNode → Nat → Bool)
    (sheet : StyleSheet S) (a : Arena S) (i : Nat) : Arena S :=
  update_at a i (cascadeFn m sheet (matchView a) i)

/-- The per-node body of `compute_style`'s read-back loop (dom/lib.rs lines
148-150). -/
def renderFn {S : Type} (g : Nat → Geometry) (i : Nat) (n : ArenaNode S) :
    ArenaNode S :=
  { n with elem := Element.update_render (g i) n.elem }

/-- One iteration of `compute_style`'s read-back loop. -/
def render_step {S : Type} (g : Nat → Geometry) (a : Arena S) (i : Nat) : Arena S :=
  update_at a i (renderFn g i)

/-- `CompiledDocument::compute_style` (dom/lib.rs lines 123-151): collect
the root's descendants once; per node, cascade and push width/height into
the yoga handle; run the external layout once; read the geometry back into
every node's render style. -/
def CompiledDocument.compute_style {S : Type} (m : S → List MatchNode → Nat → Bool)
    (layout : LayoutFn) (w h : F32) (dir : Direction) (d : CompiledDocument S) :
    CompiledDocument S :=
  let ids := d.descendants
  let a1 := ids.foldl (cascade_step m d.stylesheet) d.elements
  let g := layout (yogaView a1) w h dir
  let a2 := ids.foldl (render_step g) a1
  { d with elements := a2 }

/-- `CompiledDocument::query_selector` (dom/lib.rs lines 153-181): parse
the selector text (externally); on failure return `None`.  Otherwise scan
the arena slots in storage order, skipping removed ones, and return the
first match.  The document is returned alongside to make the absence of
mutation explicit (the source takes `&self` and only a read lock). -/
def CompiledDocument.query_selector {S : Type} (parse : String → Option S)
    (m : S → List MatchNode → Nat → Bool) (d : CompiledDocument S)
    (sel : String) : Option Nat × CompiledDocument S :=
  match parse sel with
  | none => (none, d)
  | some list =>
    let v := matchView d.elements
    ((List.range d.elements.length).find? (fun i =>
      match d.elements[i]? with
      | none => false
      | some n => !n.removed && m list v i), d)

/-- A one-node document whose stylesheet sets `margin-top: 5px` on the root
(selector matching is instantiated to the always-true matcher). -/
def marginDoc : CompiledDocument Unit :=
  ⟨0, [⟨none, none, none, none, none, false, Element.new Unit ElementData.Root⟩], 0,
    ⟨[⟨(), [Declaration.MarginTop (Value.px 5)]⟩]⟩⟩

/-- A one-node document over string selector lists with an empty stylesheet. -/
def rootOnlyDoc : CompiledDocument String :=
  ⟨0, [⟨none, none, none, none, none, false, Element.new String ElementData.Root⟩], 0,
    ⟨[]⟩⟩

/-- A two-node document: the root and one `Unstyled` child. -/
def twoNodeDoc : CompiledDocument String :=
  ⟨0, [⟨none, none, none, some 1, some 1, false, Element.new String ElementData.Root⟩,
       ⟨some 0, none, none, none, none, false, Element.new String ElementData.Unstyled⟩],
    0, ⟨[]⟩⟩

/-! ### Serialization (dom/lib.rs lines 91-121, style/lib.rs lines 128-155)

`save` hands the document to bincode with the serde views the source
derives: `Element` skips `yg`/`computed`/`render`; a `StyleRule` is
serialized through `SerdeStyleRule`, its selector list rendered to a CSS
string by the external `ToCss` and re-parsed on load.  The byte codec's
round-trip is bincode's contract; the structural content it transports is
modelled here. -/

/-- `SerdeStyleRule` (style/lib.rs lines 130-134). -/
structure SerdeStyleRule where
  selectors : String
  properties : List Declaration
deriving DecidableEq, Repr

/-- `From<StyleRule> for SerdeStyleRule` (style/lib.rs lines 136-143);
`to_css` is the external `cssparser::ToCss` rendering. -/
def StyleRule.to_serde {S : Type} (to_css : S → String) (r : StyleRule S) :
    SerdeStyleRule :=
  ⟨to_css r.selectors, r.properties⟩

/-- `From<SerdeStyleRule> for StyleRule` (style/lib.rs lines 145-155):
re-parse the selector string with the external selector parser.  The source
`unwrap`s the parse result, so a failure is a panic — modelled as `none`. -/
def SerdeStyleRule.to_rule {S : Type} (parse : String → Option S)
    (r : SerdeStyleRule) : Option (StyleRule S) :=
  (parse r.selectors).map (fun s => ⟨s, r.properties⟩)

/-- The persisted fields of an `Element` (`yg`, `computed` and `render` are
`#[serde(skip)]`, dom/lib.rs lines 12-24). -/
structure SavedElement where
  data : ElementData
  classes : List String
  id : Option String
  style : List SerdeStyleRule
deriving DecidableEq, Repr

/-- One persisted arena slot. -/
structure SavedNode where
  parent : Option Nat
  previous_sibling : Option Nat
  next_sibling : Option Nat
  first_child : Option Nat
  last_child : Option Nat
  removed : Bool
  elem : SavedElement
deriving DecidableEq, Repr

/-- The persisted form of a `CompiledDocument`, field for field
(dom/lib.rs lines 80-86): version, arena, root, stylesheet. -/
structure SavedDocument where
  version : Nat
  nodes : List SavedNode
  root : Nat
  stylesheet : List SerdeStyleRule
deriving DecidableEq, Repr

/-- Serializing an element keeps the persisted fields only. -/
def Element.save {S : Type} (to_css : S → String) (e : Element S) : SavedElement :=
  ⟨e.data, e.classes, e.id, e.style.map (StyleRule.to_serde to_css)⟩

/-- Deserializing an element: the skipped fields come back as their serde
defaults — a fresh external handle (`safe_yoga_node_new`, dom/lib.rs
line 8) and default computed/render styles. -/
def SavedElement.load {S : Type} (parse : String → Option S) (e : SavedElement) :
    Option (Element S) :=
  (e.style.mapM (SerdeStyleRule.to_rule parse)).map
    (fun st => ⟨e.data, e.classes, e.id, st, YogaProps.fresh,
      ComputedStyle.default, RenderStyle.default⟩)

/-- Serializing one arena slot. -/
def ArenaNode.save {S : Type} (to_css : S → String) (n : ArenaNode S) : SavedNode :=
  ⟨n.parent, n.previous_sibling, n.next_sibling, n.first_child, n.last_child,
    n.removed, n.elem.save to_css⟩

/-- Deserializing one arena slot. -/
def SavedNode.load {S : Type} (parse : String → Option S) (n : SavedNode) :
    Option (ArenaNode S) :=
  (n.elem.load parse).map
    (fun e => ⟨n.parent, n.previous_sibling, n.next_sibling, n.first_child,
      n.last_child, n.removed, e⟩)

/-- `CompiledDocument::save`/`save_into` (dom/lib.rs lines 91-97): the
structural content handed to bincode. -/
def CompiledDocument.save {S : Type} (to_css : S → String)
    (d : CompiledDocument S) : SavedDocument :=
  ⟨d.version, d.elements.map (ArenaNode.save to_css), d.root,
    d.stylesheet.rules.map (StyleRule.to_serde to_css)⟩

/-- `CompiledDocument::load`/`load_from` (dom/lib.rs lines 99-121): decode
the persisted structure (the source's panicking decode is modelled as
`Option`), re-materializing fresh external handles.  `init_yoga` then
re-links the external handle tree; those handles live inside the layout
engine and carry no document state. -/
def CompiledDocument.load {S : Type} (parse : String → Option S)
    (sd : SavedDocument) : Option (CompiledDocument S) := do
  let nodes ← sd.nodes.mapM (SavedNode.load parse)
  let rules ← sd.stylesheet.mapM (SerdeStyleRule.to_rule parse)
  pure ⟨sd.version, nodes, sd.root, ⟨rules⟩⟩

/-- Reset an element's transient (non-persisted) state to what a load
produces for it. -/
def Element.reset_transient {S : Type} (e : Element S) : Element S :=
  { e with
      yg := YogaProps.fresh
      computed := ComputedStyle.default
      render := RenderStyle.default }

/-- The document with every element's transient state reset: equal to the
original in everything the binary format persists. -/
def CompiledDocument.reset_transient {S : Type} (d : CompiledDocument S) :
    CompiledDocument S :=
  { d with elements := d.elements.map (fun n => { n with elem := n.elem.reset_transient }) }

/-- A concrete document exercising classes, ids, element style rules and a
stylesheet rule, with string selector lists. -/
def ruleDoc : CompiledDocument String :=
  ⟨0, [⟨none, none, none, none, none, false,
      { data := ElementData.Root, classes := ["x", "y"], id := some "a",
        style := [⟨".x", [Declaration.Width (Value.px 1)]⟩],
        yg := YogaProps.fresh, computed := ComputedStyle.default,
        render := RenderStyle.default }⟩],
    0, ⟨[⟨"#a", [Declaration.Height Value.auto]⟩]⟩⟩

/-! ### Byte-level prefix of the binary document format (C3)

`save` is `bincode::serialize(self)` (dom/lib.rs lines 91-97) with bincode
v1's default configuration: fixed-width little-endian integers, `u64`
collection lengths, `u32` enum variant tags, one-byte `Option` tags,
strings as length-prefixed UTF-8.  The arena (`indextree::Arena`) is
serialized as its vector of nodes.  The external IEEE-754 `f32` byte
encoding enters as the parameter `fp`.  Bytes are `Nat`s below 256. -/

/-- A `u64`, little-endian fixed width. -/
def u64le (n : Nat) : List Nat :=
  [n % 256, n / 256 % 256, n / 256 ^ 2 % 256, n / 256 ^ 3 % 256,
   n / 256 ^ 4 % 256, n / 256 ^ 5 % 256, n / 256 ^ 6 % 256, n / 256 ^ 7 % 256]

/-- A `u32`, little-endian fixed width. -/
def u32le (n : Nat) : List Nat :=
  [n % 256, n / 256 % 256, n / 256 ^ 2 % 256, n / 256 ^ 3 % 256]

/-- A bincode sequence: `u64` length, then the elements. -/
def encList {α : Type} (enc : α → List Nat) (l : List α) : List Nat :=
  u64le l.length ++ l.flatMap enc

/-- A bincode `Option`: one tag byte, then the payload if present. -/
def encOption {α : Type} (enc : α → List Nat) : Option α → List Nat
  | none => [0]
  | some x => 1 :: enc x

/-- A bincode `bool`. -/
def encBool : Bool → List Nat
  | false => [0]
  | true => [1]

/-- A bincode `String`: `u64` byte length, then UTF-8 bytes. -/
def encString (s : String) : List Nat :=
  u64le s.utf8ByteSize ++ s.toUTF8.toList.map (fun b => b.toNat)

/-- `yoga::Value` with bincode's `u32` variant tags. -/
def encValue (fp : ℚ → List Nat) : Value → List Nat
  | .px v => u32le 0 ++ fp v
  | .percent v => u32le 1 ++ fp v
  | .auto => u32le 2
  | .undefined => u32le 3

/-- `Declaration` with bincode's `u32` variant tags (style/lib.rs lines
157-166). -/
def encDeclaration (fp : ℚ → List Nat) : Declaration → List Nat
  | .Width v => u32le 0 ++ encValue fp v
  | .Height v => u32le 1 ++ encValue fp v
  | .BackgroundColor r g b a => u32le 2 ++ [r % 256, g % 256, b % 256, a % 256]
  | .MarginTop v => u32le 3 ++ encValue fp v
  | .MarginBottom v => u32le 4 ++ encValue fp v
  | .MarginLeft v => u32le 5 ++ encValue fp v
  | .MarginRight v => u32le 6 ++ encValue fp v

/-- A serialized style rule: selector string, then declarations. -/
def encSerdeRule (fp : ℚ → List Nat) (r : SerdeStyleRule) : List Nat :=
  encString r.selectors ++ encList (encDeclaration fp) r.properties

/-- `ElementData` with bincode's `u32` variant tags; the unit structs add
no payload bytes. -/
def encElementData : ElementData → List Nat
  | .Root => u32le 0
  | .Unstyled => u32le 1

/-- A persisted element, fields in declaration order. -/
def encSavedElement (fp : ℚ → List Nat) (e : SavedElement) : List Nat :=
  encElementData e.data ++ encList encString e.classes ++
    encOption encString e.id ++ encList (encSerdeRule fp) e.style

/-- A persisted arena slot: the five links, the removal flag, the element. -/
def encSavedNode (fp : ℚ → List Nat) (n : SavedNode) : List Nat :=
  encOption u64le n.parent ++ encOption u64le n.previous_sibling ++
    encOption u64le n.next_sibling ++ encOption u64le n.first_child ++
    encOption u64le n.last_child ++ encBool n.removed ++ encSavedElement fp n.elem

/-- `CompiledDocument::save`/`save_into` down to bytes (dom/lib.rs lines
91-97): the bincode encoding of the struct fields in declaration order —
the one-byte `version`, the arena's node vector, the root id, the
stylesheet's rule vector.  Nothing is written in front of them. -/
def CompiledDocument.save_bytes {S : Type} (to_css : S → String)
    (fp : ℚ → List Nat) (d : CompiledDocument S) : List Nat :=
  let sd := d.save to_css
  (sd.version % 256) ::
    (encList (encSavedNode fp) sd.nodes ++ u64le sd.root ++
      encList (encSerdeRule fp) sd.stylesheet)

/-- A persisted one-node document with no selector strings. -/
def trivialSaved : SavedDocument :=
  ⟨0, [⟨none, none, none, none, none, false, ⟨ElementData.Root, [], none, []⟩⟩], 0, []⟩

/-! ### The document compiler (compiler/lib.rs)

The XML reader (`quick_xml`) is external: the compiler's input is its event
stream, read one event at a time.  A `panic!`/`unwrap`/`unimplemented!` in
the source is an unrecoverable abort, modelled as `Except.error` with a
distinct constructor per site; recorded diagnostics are ordinary state.
Every loop iteration consumes an event, so the mutually recursive loops
take a fuel argument that strictly decreases per call; any fuel bound of at
least twice the stream length computes the run to completion. -/

/-- A `quick_xml` event as the compiler matches it: `start`/`empty` carry
the decoded name and attribute pairs, `endTag` is `Event::End(..)` (the
name is never read), and an exhausted stream reads as `Event::Eof`. -/
inductive XmlEvent : Type
| start (name : String) (attrs : List (String × String))
| empty (name : String) (attrs : List (String × String))
| endTag
| text (s : String)
| comment (s : String)
| eof
deriving DecidableEq, Repr

/-- The unrecoverable abort sites of the compiler, one constructor per
`panic!`/`unwrap`/`unimplemented!`/propagated error in the source. -/
inductive CompileAbort : Type
| dupFrame
| dupHead
| dupBody
| noBody
| unknownElement (name : String)
| unexpectedEvent
| missingSrc
| urlJoinFailed
| fetchFailed
| readTextFailed
| styleAttrUnimplemented
| typeUnimplemented
| outOfFuel
deriving DecidableEq, Repr

/-- `DiagnosticData` (compiler/lib.rs lines 50-56). -/
inductive DiagnosticData : Type
| InvalidElement (el : String)
| InvalidContext (name ty parent : String)
| InvalidAttribute (attr el : String)
| ExpectedSelfClosing
| ExpectedClosingTag (el : String)
deriving DecidableEq, Repr

/-- The external collaborators of the compiler: fetching a byte stream for
a location (`Reader::get` + `read_to_string`), joining a relative `src`
against the document URL (the url crate), and the CSS rule parser
(`StyleSheet::parse`; the source discards its `Result`, so only the parsed
rules matter). -/
structure CompilerExt (S : Type) where
  fetch : String → Option String
  urlJoin : String → String → Option String
  cssParse : String → List (StyleRule S)

/-- The compiler's state (`Context`, compiler/lib.rs lines 179-184), with
recorded diagnostics made explicit in place of the reporter side effect. -/
structure CompileCtx (S : Type) where
  body : Arena S
  root : Nat
  stylesheet : List (StyleRule S)
  diags : List DiagnosticData
deriving Repr

/-- The `Unstyled` attribute loop (compiler/lib.rs lines 407-437):
`class` is split on ASCII whitespace, `id` stored, `style` is
`unimplemented!()` (an abort), anything else records an invalid-attribute
diagnostic and is ignored. -/
def unstyled_attrs {S : Type} :
    List (String × String) → Element S → List DiagnosticData →
      Except CompileAbort (Element S × List DiagnosticData)
  | [], el, ds => .ok (el, ds)
  | (k, v) :: rest, el, ds =>
    if k = "class" then
      let cls := (v.split
        (fun c => c == ' ' || c == '\t' || c == '\n' || c == '\x0c' || c == '\r')).filter
          (fun s => s ≠ "")
      unstyled_attrs rest { el with classes := cls } ds
    else if k = "id" then
      unstyled_attrs rest { el with id := some v } ds
    else if k = "style" then
      .error .styleAttrUnimplemented
    else
      unstyled_attrs rest el (ds ++ [DiagnosticData.InvalidAttribute k "Unstyled"])

/-- `Context::compile_style` (compiler/lib.rs lines 315-358): for a
self-closing element collect `src` (any other attribute gets a diagnostic),
join and fetch it; for an inline element `read_text` up to the closing tag.
Parse the text as CSS into the stylesheet (the parse `Result` is
discarded). -/
def compile_style {S : Type} (P : CompilerExt S) (attrs : List (String × String))
    (empty : Bool) (url : String) (st : CompileCtx S) (evs : List XmlEvent) :
    Except CompileAbort (CompileCtx S × List XmlEvent) :=
  if empty then
    let step := fun (acc : Option String × List DiagnosticData) (kv : String × String) =>
      if kv.1 = "src" then (some kv.2, acc.2)
      else (acc.1, acc.2 ++ [DiagnosticData.InvalidAttribute kv.1 "Style"])
    let srcAndDiags := attrs.foldl step (none, [])
    let st1 := { st with diags := st.diags ++ srcAndDiags.2 }
    match srcAndDiags.1 with
    | none => .error .missingSrc
    | some src =>
      match P.urlJoin url src with
      | none => .error .urlJoinFailed
      | some joined =>
        match P.fetch joined with
        | none => .error .fetchFailed
        | some text =>
          .ok ({ st1 with stylesheet := st1.stylesheet ++ P.cssParse text }, evs)
  else
    match evs with
    | .text s :: .endTag :: rest =>
      .ok ({ st with stylesheet := st.stylesheet ++ P.cssParse s }, rest)
    | .endTag :: rest =>
      .ok ({ st with stylesheet := st.stylesheet ++ P.cssParse "" }, rest)
    | _ => .error .readTextFailed

mutual

/-- `Context::compile_root` (compiler/lib.rs lines 187-221): accept one
`Frame` (a second is `panic!("found duplicate frame")`), stop at an end tag
or end of input, panic on any other element or event. -/
def compile_root_loop {S : Type} (P : CompilerExt S) :
    Nat → Bool → String → CompileCtx S → List XmlEvent →
      Except CompileAbort (CompileCtx S × List XmlEvent)
  | 0, _, _, _, _ => .error .outOfFuel
  | _ + 1, _, _, st, [] => .ok (st, [])
  | _ + 1, _, _, st, .eof :: rest => .ok (st, rest)
  | _ + 1, _, _, st, .endTag :: rest => .ok (st, rest)
  | fuel + 1, found_frame, url, st, .start name _ :: rest =>
    if name = "Frame" then
      if found_frame then .error .dupFrame
      else
        match compile_frame_loop P fuel false false url st rest with
        | .error e => .error e
        | .ok (st', rem) => compile_root_loop P fuel true url st' rem
    else .error (.unknownElement name)
  | _ + 1, _, _, _, _ :: _ => .error .unexpectedEvent

/-- `Context::compile_frame` (compiler/lib.rs lines 223-270): accept at
most one `Head` and at most one `Body` (duplicates panic), panic on any
other element or event; on the closing tag, `panic!("found no body")`
unless a `Body` was seen. -/
def compile_frame_loop {S : Type} (P : CompilerExt S) :
    Nat → Bool → Bool → String → CompileCtx S → List XmlEvent →
      Except CompileAbort (CompileCtx S × List XmlEvent)
  | 0, _, _, _, _, _ => .error .outOfFuel
  | fuel + 1, found_head, found_body, url, st, .start "Head" _ :: rest =>
    if found_head then .error .dupHead
    else
      match compile_head_loop P fuel url st rest with
      | .error e => .error e
      | .ok (st', rem) => compile_frame_loop P fuel true found_body url st' rem
  | fuel + 1, found_head, found_body, url, st, .start "Body" _ :: rest =>
    if found_body then .error .dupBody
    else
      match compile_ui_element P fuel st.root url st rest with
      | .error e => .error e
      | .ok (st', rem) => compile_frame_loop P fuel found_head true url st' rem
  | _ + 1, _, _, _, _, .start name _ :: _ => .error (.unknownElement name)
  | _ + 1, _, found_body, _, st, .endTag :: rest =>
    if found_body then .ok (st, rest) else .error .noBody
  | _ + 1, _, _, _, _, _ => .error .unexpectedEvent

/-- `Context::compile_head` (compiler/lib.rs lines 272-313): `Style`
elements (opened or self-closing), closing tag ends the head, everything
else panics. -/
def compile_head_loop {S : Type} (P : CompilerExt S) :
    Nat → String → CompileCtx S → List XmlEvent →
      Except CompileAbort (CompileCtx S × List XmlEvent)
  | 0, _, _, _ => .error .outOfFuel
  | fuel + 1, url, st, .start "Style" attrs :: rest =>
    match compile_style P attrs false url st rest with
    | .error e => .error e
    | .ok (st', rem) => compile_head_loop P fuel url st' rem
  | fuel + 1, url, st, .empty "Style" attrs :: rest =>
    match compile_style P attrs true url st rest with
    | .error e => .error e
    | .ok (st', rem) => compile_head_loop P fuel url st' rem
  | _ + 1, _, _, .start name _ :: _ => .error (.unknownElement name)
  | _ + 1, _, _, .empty name _ :: _ => .error (.unknownElement name)
  | _ + 1, _, st, .endTag :: rest => .ok (st, rest)
  | _ + 1, _, _, _ => .error .unexpectedEvent

/-- `Context::compile_ui_element` (compiler/lib.rs lines 367-397), which
`compile_body` (lines 361-365) enters at the root: only `Unstyled` start
tags are recognized, the closing tag returns, everything else panics. -/
def compile_ui_element {S : Type} (P : CompilerExt S) :
    Nat → Nat → String → CompileCtx S → List XmlEvent →
      Except CompileAbort (CompileCtx S × List XmlEvent)
  | 0, _, _, _, _ => .error .outOfFuel
  | fuel + 1, parent, url, st, .start "Unstyled" attrs :: rest =>
    (match compile_unstyled P fuel attrs parent url st rest with
    | .error e => .error e
    | .ok (st', rem) => compile_ui_element P fuel parent url st' rem)
  | _ + 1, _, _, _, .start name _ :: _ => .error (.unknownElement name)
  | _ + 1, _, _, st, .endTag :: rest => .ok (st, rest)
  | _ + 1, _, _, _, _ => .error .unexpectedEvent

/-- `Context::compile_unstyled` (compiler/lib.rs lines 399-443): process
the attributes, append a new node as the parent's last child in document
order, then compile the element's children. -/
def compile_unstyled {S : Type} (P : CompilerExt S) :
    Nat → List (String × String) → Nat → String → CompileCtx S → List XmlEvent →
      Except CompileAbort (CompileCtx S × List XmlEvent)
  | 0, _, _, _, _, _ => .error .outOfFuel
  | fuel + 1, attrs, parent, url, st, evs =>
    match unstyled_attrs attrs (Element.new S ElementData.Unstyled) [] with
    | .error e => .error e
    | .ok (el, ds) =>
      let created := Arena.new_node st.body el
      let body' := Arena.append_child created.1 parent created.2
      compile_ui_element P fuel created.2 url
        { st with body := body', diags := st.diags ++ ds } evs

end

/-- `compile` (compiler/lib.rs lines 446-481): start from an arena holding
only the root element and run the root loop over the document's event
stream; on success the compiled document carries `STRUCTURE_VERSION` (0),
the arena, the root id and the stylesheet (`init_yoga` then links the
external handles, which carry no document state). -/
def compile {S : Type} (P : CompilerExt S) (url : String) (evs : List XmlEvent) :
    Except CompileAbort (CompiledDocument S) :=
  let created := Arena.new_node ([] : Arena S) (Element.new S ElementData.Root)
  let st : CompileCtx S := ⟨created.1, created.2, [], []⟩
  match compile_root_loop P (2 * evs.length + 2) false url st evs with
  | .error e => .error e
  | .ok (st', _) => .ok ⟨0, st'.body, st'.root, ⟨st'.stylesheet⟩⟩

/-! ### The `Style` element front-end (compiler/style.rs)

This is the newer compiler module: its surrounding `Context` and reporter
trait are not under src (only this file and main.rs are), but the attribute
processing and type selection embedded here are compiler/style.rs itself. -/

/-- `StyleType` (compiler/style.rs lines 22-27). -/
inductive StyleType : Type
| CSS
| Sass
| SCSS
deriving DecidableEq, Repr

/-- Rust's `str::split('.')`, over the string's characters: empty segments
included, `[""]` for the empty string.  (Structurally recursive so that
concrete runs evaluate; agrees with `String.splitOn "."`.) -/
def splitOnChar (sep : Char) : List Char → List (List Char)
  | [] => [[]]
  | c :: cs =>
    let r := splitOnChar sep cs
    if c = sep then [] :: r
    else
      match r with
      | [] => [[c]]
      | h :: t => (c :: h) :: t

/-- Rust's `str::to_lowercase`, per character.  (ASCII lowering suffices
for every value the compiler compares the result against.) -/
def to_lowercase (s : String) : String := String.mk (s.data.map Char.toLower)

/-- The `type` attribute values (style.rs lines 95-102 and 145-152):
`css`/`sass`/`scss` after lowercasing; any other value hits
`unimplemented!()` — an abort, not a diagnostic. -/
def parse_style_type (v : String) : Except CompileAbort StyleType :=
  match to_lowercase v with
  | "css" => .ok StyleType.CSS
  | "sass" => .ok StyleType.Sass
  | "scss" => .ok StyleType.SCSS
  | _ => .error .typeUnimplemented

/-- Style type inference from the filename (style.rs lines 120-133): take
the final dot-segment; if at least one more segment precedes it, recognize
`css` and `sass` and default anything else to `scss`; with fewer than two
segments default to `scss`. -/
def infer_style_type (filename : String) : StyleType :=
  match (splitOnChar '.' filename.data).reverse with
  | [] => StyleType.SCSS
  | ext :: rest =>
    if rest.isEmpty then StyleType.SCSS
    else
      if ext = "css".data then StyleType.CSS
      else if ext = "sass".data then StyleType.Sass
      else StyleType.SCSS

/-- The state of the `Style` attribute loop (style.rs lines 81-115 for the
self-closing form, 136-165 for the inline form). -/
structure StyleAttrState : Type where
  src : Option String
  ty : Option StyleType
  diags : List (Level × DiagnosticData)
deriving DecidableEq, Repr

/-- The `Style` attribute loop: `src` is collected only on the self-closing
form; a recognized `type` value selects the style type and an unrecognized
one aborts; any other attribute records an Info-level invalid-attribute
diagnostic and is otherwise ignored. -/
def style_attrs_loop (empty : Bool) :
    List (String × String) → StyleAttrState → Except CompileAbort StyleAttrState
  | [], s => .ok s
  | (k, v) :: rest, s =>
    if empty = true ∧ k = "src" then
      style_attrs_loop empty rest { s with src := some v }
    else if k = "type" then
      match parse_style_type v with
      | .error e => .error e
      | .ok t => style_attrs_loop empty rest { s with ty := some t }
    else
      style_attrs_loop empty rest
        { s with diags := s.diags ++ [(Level.info, DiagnosticData.InvalidAttribute k "Style")] }

/-- The (type, state) selection of `compile_style` (style.rs lines 76-169):
after the attribute loop, a self-closing element `unwrap`s `src` and infers
a missing `type` from the joined URL's final path segment (`src_filename`
stands for the url crate's join + `path_segments().next_back()`); an inline
element defaults a missing `type` to SCSS. -/
def compile_style_ty (empty : Bool) (attrs : List (String × String))
    (src_filename : String → String) :
    Except CompileAbort (StyleType × StyleAttrState) :=
  match style_attrs_loop empty attrs ⟨none, none, []⟩ with
  | .error e => .error e
  | .ok s =>
    if empty then
      match s.src with
      | none => .error .missingSrc
      | some src => .ok (s.ty.getD (infer_style_type (src_filename src)), s)
    else .ok (s.ty.getD StyleType.SCSS, s)

/-- A collaborator bundle that fetches nothing and parses nothing. -/
def trivialExt : CompilerExt Unit :=
  ⟨fun _ => none, fun _ _ => none, fun _ => []⟩

/-- The compiler's starting state: an arena holding only the root element. -/
def initCtx : CompileCtx Unit :=
  ⟨(Arena.new_node ([] : Arena Unit) (Element.new Unit ElementData.Root)).1, 0, [], []⟩


/-! ### Theorems -/

/-- C1: applying a stylesheet evaluates rules in source order — appending a
rule makes it the last one applied — and each matching rule overwrites the
fields it declares; in particular with `R1 { width: 10px }` before
`R2 { width: 20px }`, both matching the node (for any selectors whatsoever,
so independently of specificity), the computed width is 20px. -/
theorem stylesheet_apply_last_rule_wins :
    (∀ (S : Type) (m : S → Bool) (sheet : StyleSheet S) (r : StyleRule S)
        (c : ComputedStyle),
        StyleSheet.apply m ⟨sheet.rules ++ [r]⟩ c =
          StyleRule.apply m r (StyleSheet.apply m sheet c)) ∧
    (∀ (S : Type) (m : S → Bool) (s1 s2 : S) (c : ComputedStyle),
        m s1 = true → m s2 = true →
        (StyleSheet.apply m
            ⟨[⟨s1, [Declaration.Width (Value.px 10)]⟩,
              ⟨s2, [Declaration.Width (Value.px 20)]⟩]⟩ c).width =
          Value.px 20) := by
  constructor
  · intro S m sheet r c
    simp [StyleSheet.apply, List.foldl_append]
  · intro S m s1 s2 c h1 h2
    simp [StyleSheet.apply, StyleRule.apply, Declaration.apply, h1, h2]

/-- Witness for C1 at a concrete input: both rules match (the matcher is
constantly true) and the computed width is 20px. -/
theorem stylesheet_apply_last_rule_wins_witness :
    (StyleSheet.apply (fun _ : Unit => true)
        ⟨[⟨(), [Declaration.Width (Value.px 10)]⟩,
          ⟨(), [Declaration.Width (Value.px 20)]⟩]⟩ ComputedStyle.default).width =
      Value.px 20 :=
  stylesheet_apply_last_rule_wins.2 Unit (fun _ => true) () () ComputedStyle.default
    rfl rfl

/-! ### Cascade idempotence infrastructure

Applying a stylesheet to a computed style acts on every single field as a
constant-or-identity ("affine") update: the field either receives the last
value any matching rule declares for it, or keeps its previous value.  This
is the key fact behind idempotence of the cascade (used for C9). -/

/-- A declaration-list fold updates each projected field to either a fixed
value (the last one declared) or leaves it alone. -/
theorem decls_foldl_affine {α : Type} (p : ComputedStyle → α)
    (q : Declaration → Option α)
    (hp : ∀ c d, p (Declaration.apply d c) = (q d).getD (p c))
    (ds : List Declaration) :
    ∃ o : Option α, ∀ c, p (ds.foldl (fun acc d => d.apply acc) c) = o.getD (p c) := by
  induction ds with
  | nil => exact ⟨none, fun c => rfl⟩
  | cons d ds ih =>
    obtain ⟨o, ho⟩ := ih
    refine ⟨match o with | some v => some v | none => q d, fun c => ?_⟩
    simp only [List.foldl_cons]
    rw [ho (d.apply c), hp]
    cases o <;> cases hq : q d <;> simp

/-- A single rule application is affine in every projected field. -/
theorem rule_apply_affine {S : Type} {α : Type} (p : ComputedStyle → α)
    (q : Declaration → Option α)
    (hp : ∀ c d, p (Declaration.apply d c) = (q d).getD (p c))
    (m : S → Bool) (r : StyleRule S) :
    ∃ o : Option α, ∀ c, p (StyleRule.apply m r c) = o.getD (p c) := by
  by_cases hm : m r.selectors
  · obtain ⟨o, ho⟩ := decls_foldl_affine p q hp r.properties
    exact ⟨o, fun c => by simp [StyleRule.apply, hm, ho c]⟩
  · exact ⟨none, fun c => by simp [StyleRule.apply, hm]⟩

/-- A whole-sheet application is affine in every projected field. -/
theorem sheet_apply_affine {S : Type} {α : Type} (p : ComputedStyle → α)
    (q : Declaration → Option α)
    (hp : ∀ c d, p (Declaration.apply d c) = (q d).getD (p c))
    (m : S → Bool) (sheet : StyleSheet S) :
    ∃ o : Option α, ∀ c, p (StyleSheet.apply m sheet c) = o.getD (p c) := by
  show ∃ o : Option α, ∀ c,
    p (sheet.rules.foldl (fun acc r => r.apply m acc) c) = o.getD (p c)
  induction sheet.rules with
  | nil => exact ⟨none, fun c => rfl⟩
  | cons r rs ih =>
    obtain ⟨o, ho⟩ := ih
    obtain ⟨o1, ho1⟩ := rule_apply_affine p q hp m r
    refine ⟨match o with | some v => some v | none => o1, fun c => ?_⟩
    simp only [List.foldl_cons]
    rw [ho (r.apply m c), ho1]
    cases o <;> cases o1 <;> simp

/-- An affine field update is idempotent on that field. -/
theorem affine_idem {α : Type} (p : ComputedStyle → α)
    (F : ComputedStyle → ComputedStyle)
    (h : ∃ o : Option α, ∀ c, p (F c) = o.getD (p c)) (c : ComputedStyle) :
    p (F (F c)) = p (F c) := by
  obtain ⟨o, ho⟩ := h
  rw [ho (F c)]
  cases o with
  | none => rfl
  | some v => simp [ho c]

/-- Applying the same stylesheet twice with the same match results gives
the same computed style as applying it once. -/
theorem StyleSheet.apply_idem {S : Type} (m : S → Bool) (sheet : StyleSheet S)
    (c : ComputedStyle) :
    StyleSheet.apply m sheet (StyleSheet.apply m sheet c) =
      StyleSheet.apply m sheet c := by
  ext
  · exact affine_idem (fun c => c.width)
      _ (sheet_apply_affine _ (fun d => match d with | .Width v => some v | _ => none)
        (by intro c d; cases d <;> rfl) m sheet) c
  · exact affine_idem (fun c => c.height)
      _ (sheet_apply_affine _ (fun d => match d with | .Height v => some v | _ => none)
        (by intro c d; cases d <;> rfl) m sheet) c
  · exact affine_idem (fun c => c.background_color)
      _ (sheet_apply_affine _
        (fun d => match d with | .BackgroundColor r g b a => some ⟨r, g, b, a⟩ | _ => none)
        (by intro c d; cases d <;> rfl) m sheet) c
  · exact affine_idem (fun c => c.margin_top)
      _ (sheet_apply_affine _ (fun d => match d with | .MarginTop v => some v | _ => none)
        (by intro c d; cases d <;> rfl) m sheet) c
  · exact affine_idem (fun c => c.margin_bottom)
      _ (sheet_apply_affine _ (fun d => match d with | .MarginBottom v => some v | _ => none)
        (by intro c d; cases d <;> rfl) m sheet) c
  · exact affine_idem (fun c => c.margin_left)
      _ (sheet_apply_affine _ (fun d => match d with | .MarginLeft v => some v | _ => none)
        (by intro c d; cases d <;> rfl) m sheet) c
  · exact affine_idem (fun c => c.margin_right)
      _ (sheet_apply_affine _ (fun d => match d with | .MarginRight v => some v | _ => none)
        (by intro c d; cases d <;> rfl) m sheet) c

/-- A fold of `add_diagnostic` sets `should_exit` exactly when some recorded
level is Bug or Error. -/
theorem foldl_add_diagnostic_should_exit (recorded : List Level)
    (p : DiagnosticPrinter) :
    (recorded.foldl DiagnosticPrinter.add_diagnostic p).should_exit =
      (p.should_exit || recorded.any (fun l => l = Level.bug || l = Level.error)) := by
  induction recorded generalizing p with
  | nil => simp
  | cons l ls ih =>
    cases l <;>
      simp [DiagnosticPrinter.add_diagnostic, ih, Bool.or_assoc]

/-- C6: the single end-of-compile `checkpoint()` call succeeds exactly when
no diagnostic at Error or Bug level was recorded during the compile; a
compile that recorded only Info/Warn diagnostics passes the checkpoint,
while one that recorded an Error diagnostic fails it even if parsing ran to
completion (the recorded list is arbitrary). -/
theorem compile_checkpoint_ok_iff (recorded : List Level) :
    compile_checkpoint recorded = Except.ok () ↔
      ∀ l ∈ recorded, l ≠ Level.bug ∧ l ≠ Level.error := by
  unfold compile_checkpoint DiagnosticPrinter.checkpoint
  rw [foldl_add_diagnostic_should_exit]
  show (if (false || recorded.any fun l => l = Level.bug || l = Level.error) = true
      then Except.error () else Except.ok ()) = Except.ok () ↔ _
  rw [Bool.false_or]
  by_cases hany : (recorded.any fun l => l = Level.bug || l = Level.error) = true
  · rw [if_pos hany]
    simp only [List.any_eq_true] at hany
    obtain ⟨l, hl, hor⟩ := hany
    constructor
    · intro h; cases h
    · intro h
      exfalso
      rcases (by simpa using hor : l = Level.bug ∨ l = Level.error) with h1 | h1
      · exact (h l hl).1 h1
      · exact (h l hl).2 h1
  · rw [if_neg hany]
    simp only [List.any_eq_true, not_exists] at hany
    constructor
    · intro _ l hl
      constructor
      · intro hb
        exact hany l ⟨hl, by simp [hb]⟩
      · intro he
        exact hany l ⟨hl, by simp [he]⟩
    · intro _
      rfl

/-! ### Infrastructure: per-index updates and what each loop leaves alone -/

/-- Reading back an `update_at`. -/
theorem update_at_getElem? {S : Type} (a : Arena S) (i : Nat)
    (f : ArenaNode S → ArenaNode S) (j : Nat) :
    (update_at a i f)[j]? = if j = i then (a[i]?).map f else a[j]? := by
  unfold update_at
  cases h : a[i]? with
  | none =>
    by_cases hj : j = i
    · subst hj; simp [h]
    · simp [hj]
  | some n =>
    have hi : i < a.length := by
      by_contra hc
      simp [List.getElem?_eq_none (Nat.le_of_not_lt hc)] at h
    by_cases hj : j = i
    · subst hj
      simp [List.getElem?_set_self, hi, h]
    · simp [List.getElem?_set_ne (fun he => hj he.symm), hj]

/-- The trace of a fold of per-index updates: slot `j` ends up with `F j`
iterated once per occurrence of `j` in the id list. -/
theorem foldl_update_at_getElem? {S : Type} (F : Nat → ArenaNode S → ArenaNode S)
    (ids : List Nat) (a : Arena S) (j : Nat) :
    (ids.foldl (fun x i => update_at x i (F i)) a)[j]? =
      (a[j]?).map ((F j)^[ids.count j]) := by
  induction ids generalizing a with
  | nil => simp
  | cons i rest ih =>
    simp only [List.foldl_cons]
    rw [ih, update_at_getElem?]
    by_cases hj : j = i
    · subst hj
      have hc : (j :: rest).count j = rest.count j + 1 := by
        simp [List.count_cons]
      rw [if_pos rfl, Option.map_map, hc, Function.iterate_succ]
    · have hij : i ≠ j := fun he => hj he.symm
      have hc : (i :: rest).count j = rest.count j := by
        simp [List.count_cons, hij]
      rw [if_neg hj, hc]

/-- An idempotent function fixes anything in its image. -/
theorem iterate_on_image_of_idem {α : Type} (f : α → α)
    (hf : ∀ x, f (f x) = f x) (k : Nat) (x : α) : f^[k] (f x) = f x :=
  Function.iterate_fixed (hf x) k

/-- Folds preserve any arena projection each step preserves. -/
theorem foldl_preserves {S : Type} {β : Type} (g : Arena S → β)
    (step : Arena S → Nat → Arena S) (h : ∀ a i, g (step a i) = g a)
    (ids : List Nat) (a : Arena S) : g (ids.foldl step a) = g a := by
  induction ids generalizing a with
  | nil => rfl
  | cons i rest ih => rw [List.foldl_cons, ih, h]

/-- Per-index updates preserve any per-node projection the update preserves. -/
theorem map_update_at {S : Type} {β : Type} (g : ArenaNode S → β) (a : Arena S)
    (i : Nat) (f : ArenaNode S → ArenaNode S) (hf : ∀ n, g (f n) = g n) :
    (update_at a i f).map g = a.map g := by
  unfold update_at
  cases h : a[i]? with
  | none => rfl
  | some n =>
    rw [List.map_set, hf]
    apply List.ext_getElem?
    intro j
    by_cases hj : i = j
    · subst hj
      have hi : i < a.length := by
        by_contra hc
        simp [List.getElem?_eq_none (Nat.le_of_not_lt hc)] at h
      rw [List.getElem?_set_self (by simpa using hi), List.getElem?_map, h]
      rfl
    · rw [List.getElem?_set_ne hj]

/-- The cascade loop body changes only `computed` and `yg`; the structural
view is untouched. -/
theorem structView_cascade_step {S : Type} (m : S → List MatchNode → Nat → Bool)
    (sheet : StyleSheet S) (a : Arena S) (i : Nat) :
    structView (cascade_step m sheet a i) = structView a :=
  map_update_at _ a i _ (fun _ => rfl)

/-- The render read-back loop body changes only `render`; the structural
view is untouched. -/
theorem structView_render_step {S : Type} (g : Nat → Geometry) (a : Arena S)
    (i : Nat) : structView (render_step g a i) = structView a :=
  map_update_at _ a i _ (fun _ => rfl)

/-- The render read-back loop body does not touch what the layout engine
sees (links and pushed properties). -/
theorem yogaView_render_step {S : Type} (g : Nat → Geometry) (a : Arena S)
    (i : Nat) : yogaView (render_step g a i) = yogaView a :=
  map_update_at _ a i _ (fun _ => rfl)

/-- The matching engine's view is a projection of the structural view. -/
theorem matchView_eq_of_structView {S : Type} (a b : Arena S)
    (h : structView a = structView b) : matchView a = matchView b := by
  have ha : matchView a = (structView a).map
      (fun t => ⟨t.parent, t.previous_sibling, t.next_sibling, t.first_child,
        t.data, t.classes, t.id⟩) := by
    simp [matchView, structView, List.map_map]
  have hb : matchView b = (structView b).map
      (fun t => ⟨t.parent, t.previous_sibling, t.next_sibling, t.first_child,
        t.data, t.classes, t.id⟩) := by
    simp [matchView, structView, List.map_map]
  rw [ha, hb, h]

/-- `matchView` is invariant under the cascade loop body. -/
theorem matchView_cascade_step {S : Type} (m : S → List MatchNode → Nat → Bool)
    (sheet : StyleSheet S) (a : Arena S) (i : Nat) :
    matchView (cascade_step m sheet a i) = matchView a :=
  matchView_eq_of_structView _ _ (structView_cascade_step m sheet a i)

/-- A cascade fold computes every per-node cascade against the one tree view
that stays fixed along the loop. -/
theorem foldl_cascade_fixed {S : Type} (m : S → List MatchNode → Nat → Bool)
    (sheet : StyleSheet S) (V : List MatchNode) (ids : List Nat) (a : Arena S)
    (hV : matchView a = V) :
    ids.foldl (cascade_step m sheet) a =
      ids.foldl (fun x i => update_at x i (cascadeFn m sheet V i)) a := by
  induction ids generalizing a with
  | nil => rfl
  | cons i rest ih =>
    simp only [List.foldl_cons]
    have hstep : cascade_step m sheet a i = update_at a i (cascadeFn m sheet V i) := by
      rw [cascade_step, hV]
    rw [hstep]
    exact ih _ (by rw [← hstep, matchView_cascade_step, hV])

/-- Re-running the cascade body on an already-cascaded node changes nothing:
the computed style is stable by `StyleSheet.apply_idem` and the re-pushed
width/height are the values already pushed. -/
theorem cascadeFn_idem {S : Type} (m : S → List MatchNode → Nat → Bool)
    (sheet : StyleSheet S) (v : List MatchNode) (i : Nat) (n : ArenaNode S) :
    cascadeFn m sheet v i (cascadeFn m sheet v i n) = cascadeFn m sheet v i n := by
  simp [cascadeFn, Element.prepare_yoga, StyleSheet.apply_idem]

/-- Re-running the render read-back body changes nothing. -/
theorem renderFn_idem {S : Type} (g : Nat → Geometry) (i : Nat) (n : ArenaNode S) :
    renderFn g i (renderFn g i n) = renderFn g i n := by
  simp [renderFn, Element.update_render]

/-- Re-cascading a node that was cascaded and then render-updated changes
nothing: the cascade result and the pushed width/height are already there. -/
theorem cascadeFn_fixes_rendered {S : Type} (m : S → List MatchNode → Nat → Bool)
    (sheet : StyleSheet S) (v : List MatchNode) (g : Nat → Geometry) (i : Nat)
    (n : ArenaNode S) :
    cascadeFn m sheet v i (renderFn g i (cascadeFn m sheet v i n)) =
      renderFn g i (cascadeFn m sheet v i n) := by
  simp [cascadeFn, renderFn, Element.prepare_yoga, Element.update_render,
    StyleSheet.apply_idem]

/-- Two arenas with the same structural view have the same sibling chains. -/
theorem childList_congr {S : Type} (a b : Arena S) (h : structView a = structView b) :
    ∀ (f : Nat) (o : Option Nat), childList a f o = childList b f o := by
  have hpt : ∀ i : Nat, (a[i]?).map
      (fun n : ArenaNode S => (⟨n.parent, n.previous_sibling, n.next_sibling,
        n.first_child, n.last_child, n.removed, n.elem.data, n.elem.classes,
        n.elem.id, n.elem.style⟩ : StructNode S)) =
      (b[i]?).map (fun n => ⟨n.parent, n.previous_sibling, n.next_sibling,
        n.first_child, n.last_child, n.removed, n.elem.data, n.elem.classes,
        n.elem.id, n.elem.style⟩) := by
    intro i
    have := congrArg (fun l => l[i]?) h
    simpa [structView, List.getElem?_map] using this
  intro f
  induction f with
  | zero => intro o; rfl
  | succ f ih =>
    intro o
    cases o with
    | none => rfl
    | some c =>
      have hc := hpt c
      cases ha : a[c]? with
      | none =>
        cases hb : b[c]? with
        | none => simp [childList, ha, hb]
        | some cn => rw [ha, hb] at hc; cases hc
      | some cn =>
        cases hb : b[c]? with
        | none => rw [ha, hb] at hc; cases hc
        | some cn' =>
          rw [ha, hb] at hc
          have hnx : cn.next_sibling = cn'.next_sibling :=
            congrArg StructNode.next_sibling (Option.some.inj hc)
          simp [childList, ha, hb, hnx, ih]

/-- Two arenas with the same structural view have the same pre-order
descendant lists. -/
theorem subtree_congr {S : Type} (a b : Arena S) (h : structView a = structView b) :
    ∀ (f : Nat) (i : Nat), subtree a f i = subtree b f i := by
  have hpt : ∀ i : Nat, (a[i]?).map
      (fun n : ArenaNode S => (⟨n.parent, n.previous_sibling, n.next_sibling,
        n.first_child, n.last_child, n.removed, n.elem.data, n.elem.classes,
        n.elem.id, n.elem.style⟩ : StructNode S)) =
      (b[i]?).map (fun n => ⟨n.parent, n.previous_sibling, n.next_sibling,
        n.first_child, n.last_child, n.removed, n.elem.data, n.elem.classes,
        n.elem.id, n.elem.style⟩) := by
    intro i
    have := congrArg (fun l => l[i]?) h
    simpa [structView, List.getElem?_map] using this
  intro f
  induction f with
  | zero => intro i; rfl
  | succ f ih =>
    intro i
    have hi := hpt i
    cases ha : a[i]? with
    | none =>
      cases hb : b[i]? with
      | none => simp [subtree, ha, hb]
      | some n => rw [ha, hb] at hi; cases hi
    | some n =>
      cases hb : b[i]? with
      | none => rw [ha, hb] at hi; cases hi
      | some n' =>
        rw [ha, hb] at hi
        have hfc : n.first_child = n'.first_child :=
          congrArg StructNode.first_child (Option.some.inj hi)
        have hsub : subtree a f = subtree b f := funext ih
        simp [subtree, ha, hb, hfc, childList_congr a b h, hsub]

/-- Arenas with the same structural view have the same length. -/
theorem length_eq_of_structView {S : Type} (a b : Arena S)
    (h : structView a = structView b) : a.length = b.length := by
  have := congrArg List.length h
  simpa [structView] using this

/-- The cascade fold leaves the structural view unchanged. -/
theorem structView_foldl_cascade {S : Type} (m : S → List MatchNode → Nat → Bool)
    (sheet : StyleSheet S) (ids : List Nat) (a : Arena S) :
    structView (ids.foldl (cascade_step m sheet) a) = structView a :=
  foldl_preserves structView _ (structView_cascade_step m sheet) ids a

/-- The render fold leaves the structural view unchanged. -/
theorem structView_foldl_render {S : Type} (g : Nat → Geometry) (ids : List Nat)
    (a : Arena S) :
    structView (ids.foldl (render_step g) a) = structView a :=
  foldl_preserves structView _ (structView_render_step g) ids a

/-- The render fold does not change what the layout engine sees. -/
theorem yogaView_foldl_render {S : Type} (g : Nat → Geometry) (ids : List Nat)
    (a : Arena S) :
    yogaView (ids.foldl (render_step g) a) = yogaView a :=
  foldl_preserves yogaView _ (yogaView_render_step g) ids a

/-- One extra application collapses an iterated idempotent function. -/
theorem iterate_succ_of_idem {α : Type} (f : α → α) (hf : ∀ x, f (f x) = f x)
    (k : Nat) (x : α) : f^[k + 1] x = f x := by
  rw [Function.iterate_succ_apply]
  exact iterate_on_image_of_idem f hf k x

/-- Running the two loops of `compute_style` a second time, against the
arena the first run produced, reproduces that arena exactly. -/
theorem compute_pass_idem {S : Type} (m : S → List MatchNode → Nat → Bool)
    (sheet : StyleSheet S) (layout : LayoutFn) (w h : F32) (dir : Direction)
    (root : Nat) (a0 : Arena S) :
    let ids := subtree a0 (a0.length + 1) root
    let A1 := ids.foldl (cascade_step m sheet) a0
    let G1 := layout (yogaView A1) w h dir
    let A1' := ids.foldl (render_step G1) A1
    let ids2 := subtree A1' (A1'.length + 1) root
    let A2 := ids2.foldl (cascade_step m sheet) A1'
    let G2 := layout (yogaView A2) w h dir
    ids2.foldl (render_step G2) A2 = A1' := by
  intro ids A1 G1 A1' ids2 A2 G2
  have hsv1 : structView A1 = structView a0 := structView_foldl_cascade m sheet ids a0
  have hsv1' : structView A1' = structView a0 :=
    (structView_foldl_render G1 ids A1).trans hsv1
  have hlen : A1'.length = a0.length := length_eq_of_structView _ _ hsv1'
  have hids2 : ids2 = ids := by
    show subtree A1' (A1'.length + 1) root = subtree a0 (a0.length + 1) root
    rw [hlen]
    exact subtree_congr A1' a0 hsv1' _ root
  have hmv1' : matchView A1' = matchView a0 := matchView_eq_of_structView _ _ hsv1'
  have hA1fix : A1 =
      ids.foldl (fun x i => update_at x i (cascadeFn m sheet (matchView a0) i)) a0 :=
    foldl_cascade_fixed m sheet (matchView a0) ids a0 rfl
  have htr1 : ∀ j, A1[j]? =
      (a0[j]?).map ((cascadeFn m sheet (matchView a0) j)^[ids.count j]) := by
    intro j
    rw [hA1fix]
    exact foldl_update_at_getElem? _ ids a0 j
  have htr1' : ∀ j, A1'[j]? = (A1[j]?).map ((renderFn G1 j)^[ids.count j]) := by
    intro j
    exact foldl_update_at_getElem? (renderFn G1) ids A1 j
  have hA2 : A2 = A1' := by
    have hA2fix : A2 =
        ids.foldl (fun x i => update_at x i (cascadeFn m sheet (matchView a0) i)) A1' := by
      show ids2.foldl (cascade_step m sheet) A1' = _
      rw [hids2]
      exact foldl_cascade_fixed m sheet (matchView a0) ids A1' hmv1'
    apply List.ext_getElem?
    intro j
    have htr2 : A2[j]? =
        (A1'[j]?).map ((cascadeFn m sheet (matchView a0) j)^[ids.count j]) := by
      rw [hA2fix]
      exact foldl_update_at_getElem? _ ids A1' j
    rw [htr2, htr1' j, htr1 j]
    cases hk : ids.count j with
    | zero => simp
    | succ k =>
      cases ha : a0[j]? with
      | none => simp
      | some n0 =>
        simp only [Option.map_some']
        rw [iterate_succ_of_idem _ (cascadeFn_idem m sheet (matchView a0) j) k n0]
        rw [iterate_succ_of_idem _ (renderFn_idem G1 j) k _]
        rw [iterate_succ_of_idem _ (cascadeFn_idem m sheet (matchView a0) j) k _]
        rw [cascadeFn_fixes_rendered]
  have hG2 : G2 = G1 := by
    show layout (yogaView A2) w h dir = layout (yogaView A1) w h dir
    rw [hA2]
    rw [yogaView_foldl_render G1 ids A1]
  show ids2.foldl (render_step G2) A2 = A1'
  rw [hids2, hG2, hA2]
  apply List.ext_getElem?
  intro j
  have htr : (ids.foldl (render_step G1) A1')[j]? =
      (A1'[j]?).map ((renderFn G1 j)^[ids.count j]) :=
    foldl_update_at_getElem? (renderFn G1) ids A1' j
  rw [htr]
  cases hk : ids.count j with
  | zero => simp
  | succ k =>
    rw [htr1' j, htr1 j, hk]
    cases ha : a0[j]? with
    | none => simp
    | some n0 =>
      simp only [Option.map_some']
      rw [iterate_succ_of_idem _ (cascadeFn_idem m sheet (matchView a0) j) k n0]
      rw [iterate_succ_of_idem _ (renderFn_idem G1 j) k _]
      rw [iterate_succ_of_idem _ (renderFn_idem G1 j) k _]
      rw [renderFn_idem]

/-- `compute_style` is idempotent: a second run with the same viewport
parameters and no intervening mutation reproduces the document exactly. -/
theorem compute_style_idem {S : Type} (m : S → List MatchNode → Nat → Bool)
    (layout : LayoutFn) (w h : F32) (dir : Direction) (d : CompiledDocument S) :
    (d.compute_style m layout w h dir).compute_style m layout w h dir =
      d.compute_style m layout w h dir := by
  ext1
  · rfl
  · exact compute_pass_idem m d.stylesheet layout w h dir d.root d.elements
  · rfl
  · rfl

/-- C9: calling `compute_style` twice in succession with identical viewport
parameters (width, height, direction) and no intervening document mutation
yields, for every node, exactly the same RenderStyle (width, height, top,
left, background color) after the second call as after the first. -/
theorem compute_style_twice_same_render {S : Type}
    (m : S → List MatchNode → Nat → Bool) (layout : LayoutFn) (w h : F32)
    (dir : Direction) (d : CompiledDocument S) (j : Nat) :
    (((d.compute_style m layout w h dir).compute_style m layout w h dir).elements[j]?).map
        (fun n => n.elem.render) =
      ((d.compute_style m layout w h dir).elements[j]?).map (fun n => n.elem.render) := by
  rw [compute_style_idem]

/-- Ids emitted by a sibling chain walk denote existing slots. -/
theorem childList_mem_valid {S : Type} (a : Arena S) :
    ∀ (f : Nat) (o : Option Nat) (i : Nat), i ∈ childList a f o →
      ∃ n, a[i]? = some n := by
  intro f
  induction f with
  | zero => intro o i h; cases h
  | succ f ih =>
    intro o i h
    cases o with
    | none => cases h
    | some c =>
      cases hc : a[c]? with
      | none => rw [childList, hc] at h; cases h
      | some cn =>
        rw [childList, hc] at h
        rcases List.mem_cons.mp h with rfl | htail
        · exact ⟨cn, hc⟩
        · exact ih _ i htail

/-- Ids emitted by the pre-order traversal denote existing slots. -/
theorem subtree_mem_valid {S : Type} (a : Arena S) :
    ∀ (f r i : Nat), i ∈ subtree a f r → ∃ n, a[i]? = some n := by
  intro f
  induction f with
  | zero => intro r i h; cases h
  | succ f ih =>
    intro r i h
    cases hr : a[r]? with
    | none => rw [subtree, hr] at h; cases h
    | some n =>
      rw [subtree, hr] at h
      rcases List.mem_cons.mp h with rfl | htail
      · exact ⟨n, hr⟩
      · obtain ⟨c, _, hc2⟩ := List.mem_flatMap.mp htail
        exact ih c i hc2

/-- What one full `compute_style` pass leaves in the slot of any traversed
node: the node is cascaded once (idempotence collapses repeats) and then
render-updated once. -/
theorem compute_pass_slot {S : Type} (m : S → List MatchNode → Nat → Bool)
    (sheet : StyleSheet S) (layout : LayoutFn) (w h : F32) (dir : Direction)
    (root : Nat) (a0 : Arena S) (i : Nat)
    (hi : i ∈ subtree a0 (a0.length + 1) root) :
    let ids := subtree a0 (a0.length + 1) root
    let A1 := ids.foldl (cascade_step m sheet) a0
    let G1 := layout (yogaView A1) w h dir
    ∃ n0, a0[i]? = some n0 ∧
      (ids.foldl (render_step G1) A1)[i]? =
        some (renderFn G1 i (cascadeFn m sheet (matchView a0) i n0)) := by
  intro ids A1 G1
  obtain ⟨n0, hn0⟩ := subtree_mem_valid a0 (a0.length + 1) root i hi
  refine ⟨n0, hn0, ?_⟩
  have hA1fix : A1 =
      ids.foldl (fun x j => update_at x j (cascadeFn m sheet (matchView a0) j)) a0 :=
    foldl_cascade_fixed m sheet (matchView a0) ids a0 rfl
  have htr1 : A1[i]? =
      (a0[i]?).map ((cascadeFn m sheet (matchView a0) i)^[ids.count i]) := by
    rw [hA1fix]
    exact foldl_update_at_getElem? _ ids a0 i
  have htr1' : (ids.foldl (render_step G1) A1)[i]? =
      (A1[i]?).map ((renderFn G1 i)^[ids.count i]) :=
    foldl_update_at_getElem? (renderFn G1) ids A1 i
  have hk0 : ids.count i ≠ 0 := fun h0 => (List.count_eq_zero.mp h0) hi
  obtain ⟨k, hk⟩ := Nat.exists_eq_succ_of_ne_zero hk0
  rw [htr1', htr1, hn0, hk]
  simp only [Option.map_some']
  rw [iterate_succ_of_idem _ (cascadeFn_idem m sheet (matchView a0) i) k n0]
  rw [iterate_succ_of_idem _ (renderFn_idem G1 i) k _]

/-- C4 (amended): for every document and every traversed node,
`compute_style` pushes the cascade-resolved width and height into the
node's external layout-engine handle, but not the margins: the four margin
slots of the handle are exactly what they were before the call (the render
read-back loop never touches the handle, so this is also the handle state
the layout pass saw). -/
theorem compute_style_pushes_width_height_not_margins {S : Type}
    (m : S → List MatchNode → Nat → Bool) (layout : LayoutFn) (w h : F32)
    (dir : Direction) (d : CompiledDocument S) (i : Nat)
    (hi : i ∈ d.descendants) :
    ∃ n0 n1, d.elements[i]? = some n0 ∧
      (d.compute_style m layout w h dir).elements[i]? = some n1 ∧
      n1.elem.yg.width = some n1.elem.computed.width ∧
      n1.elem.yg.height = some n1.elem.computed.height ∧
      n1.elem.yg.margin_top = n0.elem.yg.margin_top ∧
      n1.elem.yg.margin_bottom = n0.elem.yg.margin_bottom ∧
      n1.elem.yg.margin_left = n0.elem.yg.margin_left ∧
      n1.elem.yg.margin_right = n0.elem.yg.margin_right := by
  obtain ⟨n0, hn0, hslot⟩ :=
    compute_pass_slot m d.stylesheet layout w h dir d.root d.elements i hi
  refine ⟨n0, _, hn0, hslot, ?_, ?_, ?_, ?_, ?_, ?_⟩ <;>
    simp [renderFn, cascadeFn, Element.update_render, Element.prepare_yoga]

/-- C4 counterexample: the claim says `compute_style` pushes all four
cascade-resolved margins into the node's layout-engine handle before the
layout pass.  On a document whose only matching rule sets `margin-top: 5px`,
after `compute_style` the node's computed margin-top is 5px, yet nothing
was ever pushed into the handle's margin (it still has its creation state):
`prepare_yoga` pushes only width and height. -/
theorem compute_style_margin_not_pushed_cex :
    ((marginDoc.compute_style (fun _ _ _ => true)
        (fun _ _ _ _ _ => ⟨F32.nan, F32.nan, F32.nan, F32.nan⟩)
        F32.nan F32.nan Direction.ltr).elements[0]?).map
      (fun n => (n.elem.computed.margin_top, n.elem.yg.margin_top)) =
      some (Value.px 5, (none : Option Value)) := by
  decide

/-- Witness for C4 (amended) at the concrete one-node document. -/
theorem compute_style_pushes_width_height_not_margins_witness :
    ∃ n0 n1, marginDoc.elements[0]? = some n0 ∧
      (marginDoc.compute_style (fun _ _ _ => true)
        (fun _ _ _ _ _ => ⟨F32.nan, F32.nan, F32.nan, F32.nan⟩)
        F32.nan F32.nan Direction.ltr).elements[0]? = some n1 ∧
      n1.elem.yg.width = some n1.elem.computed.width ∧
      n1.elem.yg.height = some n1.elem.computed.height ∧
      n1.elem.yg.margin_top = n0.elem.yg.margin_top ∧
      n1.elem.yg.margin_bottom = n0.elem.yg.margin_bottom ∧
      n1.elem.yg.margin_left = n0.elem.yg.margin_left ∧
      n1.elem.yg.margin_right = n0.elem.yg.margin_right :=
  compute_style_pushes_width_height_not_margins (fun _ _ _ => true)
    (fun _ _ _ _ _ => ⟨F32.nan, F32.nan, F32.nan, F32.nan⟩)
    F32.nan F32.nan Direction.ltr marginDoc 0 (by decide)

/-- C10: for every document and every selector string the external selector
parser rejects, `query_selector` returns `none` — no panic, no error
surface — and the document is left unchanged. -/
theorem query_selector_parse_failure {S : Type} (parse : String → Option S)
    (m : S → List MatchNode → Nat → Bool) (d : CompiledDocument S) (sel : String)
    (h : parse sel = none) :
    CompiledDocument.query_selector parse m d sel = (none, d) := by
  simp [CompiledDocument.query_selector, h]

/-- Witness for C10: a parser that rejects every input, on a concrete
document and selector string. -/
theorem query_selector_parse_failure_witness :
    CompiledDocument.query_selector (fun _ => (none : Option String))
      (fun _ _ _ => true) rootOnlyDoc "###" = (none, rootOnlyDoc) :=
  query_selector_parse_failure (fun _ => none) (fun _ _ _ => true) rootOnlyDoc "###" rfl

/-- `mapM` over a mapped list whose composite succeeds pointwise. -/
theorem mapM_map_of_comp {α β γ : Type} (f : α → β) (g : β → Option γ)
    (h : α → γ) (hfg : ∀ x, g (f x) = some (h x)) (l : List α) :
    (l.map f).mapM g = some (l.map h) := by
  induction l with
  | nil => rfl
  | cons x xs ih =>
    rw [List.map_cons, List.mapM_cons, hfg, ih]
    rfl

/-- C2: for every compiled document, `load (save d)` succeeds and returns a
document whose element tree (element data, classes, ids, per-element style
rules, parent/child/sibling links in document order, removal flags) and
stylesheet equal the original's; only the non-persisted render style,
computed style and external layout handles are (re)set.  The hypothesis is
the external selector codec's round-trip contract (`ToCss` rendering
re-parsed by `SelectorList::parse`), on which the source's `unwrap` relies. -/
theorem save_load_roundtrip {S : Type} (to_css : S → String)
    (parse : String → Option S) (hcodec : ∀ s : S, parse (to_css s) = some s)
    (d : CompiledDocument S) :
    CompiledDocument.load parse (CompiledDocument.save to_css d) =
      some d.reset_transient := by
  have hrule : ∀ r : StyleRule S,
      SerdeStyleRule.to_rule parse (StyleRule.to_serde to_css r) = some r := by
    intro r
    simp [SerdeStyleRule.to_rule, StyleRule.to_serde, hcodec]
  have helem : ∀ e : Element S,
      SavedElement.load parse (Element.save to_css e) = some e.reset_transient := by
    intro e
    unfold SavedElement.load Element.save
    rw [mapM_map_of_comp _ _ id (fun r => by rw [hrule r]; rfl)]
    simp [Element.reset_transient]
  have hnode : ∀ n : ArenaNode S,
      SavedNode.load parse (ArenaNode.save to_css n) =
        some { n with elem := n.elem.reset_transient } := by
    intro n
    unfold SavedNode.load ArenaNode.save
    rw [helem]
    rfl
  unfold CompiledDocument.load CompiledDocument.save
  rw [mapM_map_of_comp _ _ (fun n => { n with elem := n.elem.reset_transient }) hnode]
  rw [mapM_map_of_comp _ _ id (fun r => by rw [hrule r]; rfl)]
  simp [CompiledDocument.reset_transient]

/-- Witness for C2 at a concrete document, with the identity selector codec
(render = the string itself, parse = always succeeds with it). -/
theorem save_load_roundtrip_witness :
    CompiledDocument.load some (CompiledDocument.save id ruleDoc) =
      some ruleDoc.reset_transient :=
  save_load_roundtrip id some (fun _ => rfl) ruleDoc

/-- C3 counterexample: there is no fixed 5-byte magic header in the saved
byte stream.  Bytes 1-4 are low bytes of the arena's node count, so the
first five bytes of a one-node document's save differ from a two-node
document's — no single 5-byte prefix is shared by all documents (the
instantiation of the external selector/f32 encodings is irrelevant: both
documents' first bytes are produced before any of their output). -/
theorem save_bytes_no_magic_cex :
    ¬ ∃ magic : List Nat, magic.length = 5 ∧
      ∀ d : CompiledDocument String,
        (CompiledDocument.save_bytes id (fun _ => []) d).take 5 = magic := by
  rintro ⟨magic, -, hall⟩
  have h12 : (CompiledDocument.save_bytes id (fun _ => []) rootOnlyDoc).take 5 =
      (CompiledDocument.save_bytes id (fun _ => []) twoNodeDoc).take 5 :=
    (hall rootOnlyDoc).trans (hall twoNodeDoc).symm
  exact absurd h12 (by decide)

/-- The success of an element-wise successful `mapM`. -/
theorem mapM_isSome_of_forall {α β : Type} (g : α → Option β) (l : List α)
    (h : ∀ x ∈ l, (g x).isSome) : (l.mapM g).isSome := by
  induction l with
  | nil => rfl
  | cons x xs ih =>
    rw [List.mapM_cons]
    obtain ⟨y, hy⟩ := Option.isSome_iff_exists.mp (h x (List.mem_cons_self x xs))
    obtain ⟨ys, hys⟩ :=
      Option.isSome_iff_exists.mp (ih (fun z hz => h z (List.mem_cons_of_mem x hz)))
    show ((g x).bind fun y' => (xs.mapM g).bind fun ys' => pure (y' :: ys')).isSome = true
    rw [hy]
    show ((xs.mapM g).bind fun ys' => pure (y :: ys')).isSome = true
    rw [hys]
    rfl

/-- C3 (amended): `save`/`save_into` emit the bincode encoding directly with
no magic header: the first byte is the structure-version byte and the next
four are the low bytes of the arena's node count.  `load`/`load_from`
perform no magic (or version) validation at all: every structurally
decodable payload whose selector strings parse is accepted, and a load
fails (panics) exactly when bincode decoding or selector re-parsing fails. -/
theorem save_bytes_version_header_load_unchecked :
    (∀ (S : Type) (to_css : S → String) (fp : ℚ → List Nat)
        (d : CompiledDocument S),
        (CompiledDocument.save_bytes to_css fp d).take 5 =
          d.version % 256 :: (u64le d.elements.length).take 4) ∧
    (∀ (S : Type) (parse : String → Option S) (sd : SavedDocument),
        (∀ n ∈ sd.nodes, ∀ r ∈ n.elem.style, (parse r.selectors).isSome) →
        (∀ r ∈ sd.stylesheet, (parse r.selectors).isSome) →
        (CompiledDocument.load parse sd).isSome) := by
  constructor
  · intro S to_css fp d
    show (((d.save to_css).version % 256) ::
        (encList (encSavedNode fp) (d.save to_css).nodes ++ u64le (d.save to_css).root ++
          encList (encSerdeRule fp) (d.save to_css).stylesheet)).take 5 =
      d.version % 256 :: (u64le d.elements.length).take 4
    rw [List.take_succ_cons]
    congr 1
    show (encList (encSavedNode fp) (d.save to_css).nodes ++
        (u64le (d.save to_css).root ++ encList (encSerdeRule fp) (d.save to_css).stylesheet)).take 4 = _
    rw [encList, List.append_assoc]
    rw [List.take_append_of_le_length (by simp [u64le])]
    have : (d.save to_css).nodes.length = d.elements.length := by
      simp [CompiledDocument.save]
    rw [this]
  · intro S parse sd h1 h2
    have hnode : ∀ n ∈ sd.nodes, (SavedNode.load parse n).isSome := by
      intro n hn
      have hstyle : (n.elem.style.mapM (SerdeStyleRule.to_rule parse)).isSome :=
        mapM_isSome_of_forall _ _ (fun r hr => by
          unfold SerdeStyleRule.to_rule
          obtain ⟨s, hs⟩ := Option.isSome_iff_exists.mp (h1 n hn r hr)
          rw [hs]
          rfl)
      obtain ⟨st, hst⟩ := Option.isSome_iff_exists.mp hstyle
      unfold SavedNode.load SavedElement.load
      rw [hst]
      rfl
    have hrules : (sd.stylesheet.mapM (SerdeStyleRule.to_rule parse)).isSome :=
      mapM_isSome_of_forall _ _ (fun r hr => by
        unfold SerdeStyleRule.to_rule
        obtain ⟨s, hs⟩ := Option.isSome_iff_exists.mp (h2 r hr)
        rw [hs]
        rfl)
    obtain ⟨nodes, hnodes⟩ :=
      Option.isSome_iff_exists.mp (mapM_isSome_of_forall _ _ hnode)
    obtain ⟨rules, hr⟩ := Option.isSome_iff_exists.mp hrules
    show ((sd.nodes.mapM (SavedNode.load parse)).bind fun ns =>
        (sd.stylesheet.mapM (SerdeStyleRule.to_rule parse)).bind fun rs =>
          some (⟨sd.version, ns, sd.root, ⟨rs⟩⟩ : CompiledDocument S)).isSome = true
    rw [hnodes]
    show ((sd.stylesheet.mapM (SerdeStyleRule.to_rule parse)).bind fun rs =>
        some (⟨sd.version, nodes, sd.root, ⟨rs⟩⟩ : CompiledDocument S)).isSome = true
    rw [hr]
    rfl

/-- Witness for C3 (amended) at concrete inputs: the concrete one-node
document's save starts with its version byte followed by node-count bytes,
and a concrete magic-less payload loads successfully. -/
theorem save_bytes_version_header_load_unchecked_witness :
    ((CompiledDocument.save_bytes id (fun _ => []) rootOnlyDoc).take 5 =
      rootOnlyDoc.version % 256 :: (u64le rootOnlyDoc.elements.length).take 4) ∧
    (CompiledDocument.load (some : String → Option String) trivialSaved).isSome :=
  ⟨save_bytes_version_header_load_unchecked.1 String id (fun _ => []) rootOnlyDoc,
   save_bytes_version_header_load_unchecked.2 String some trivialSaved
     (by decide) (by decide)⟩

/-- C5: a second `Frame` at the document root, a second `Body` inside one
`Frame`, and a `Frame` whose content ends without any `Body` each abort
compilation as an unrecoverable failure (a `panic!` in the source, an
`Except.error` here) — no document is produced and no mere diagnostic is
recorded.  Each scenario is quantified over the surrounding content via the
machine's own run: however the first `Frame` (resp. `Body`, `Head`)
completes, the offending next event aborts. -/
theorem compile_structural_aborts :
    (∀ (S : Type) (P : CompilerExt S) (f : Nat) (url : String)
        (st st' : CompileCtx S) (evs rem : List XmlEvent)
        (a1 a2 : List (String × String)),
        compile_frame_loop P (f + 1) false false url st evs =
          .ok (st', XmlEvent.start "Frame" a2 :: rem) →
        compile_root_loop P (f + 2) false url st (XmlEvent.start "Frame" a1 :: evs) =
          .error CompileAbort.dupFrame) ∧
    (∀ (S : Type) (P : CompilerExt S) (f : Nat) (url : String)
        (st st' : CompileCtx S) (evs rem : List XmlEvent)
        (a1 a2 : List (String × String)) (fh : Bool),
        compile_ui_element P (f + 1) st.root url st evs =
          .ok (st', XmlEvent.start "Body" a2 :: rem) →
        compile_frame_loop P (f + 2) fh false url st (XmlEvent.start "Body" a1 :: evs) =
          .error CompileAbort.dupBody) ∧
    (∀ (S : Type) (P : CompilerExt S) (f : Nat) (url : String)
        (st st' : CompileCtx S) (evs rem : List XmlEvent)
        (a1 : List (String × String)),
        compile_head_loop P (f + 1) url st evs = .ok (st', XmlEvent.endTag :: rem) →
        compile_frame_loop P (f + 2) false false url st (XmlEvent.start "Head" a1 :: evs) =
          .error CompileAbort.noBody) := by
  refine ⟨?_, ?_, ?_⟩
  · intro S P f url st st' evs rem a1 a2 h
    have h1 : compile_root_loop P (f + 2) false url st
        (XmlEvent.start "Frame" a1 :: evs) =
        match compile_frame_loop P (f + 1) false false url st evs with
        | .error e => .error e
        | .ok (st2, rem2) => compile_root_loop P (f + 1) true url st2 rem2 := by
      simp [compile_root_loop]
    rw [h1, h]
    simp [compile_root_loop]
  · intro S P f url st st' evs rem a1 a2 fh h
    have h1 : compile_frame_loop P (f + 2) fh false url st
        (XmlEvent.start "Body" a1 :: evs) =
        match compile_ui_element P (f + 1) st.root url st evs with
        | .error e => .error e
        | .ok (st2, rem2) => compile_frame_loop P (f + 1) fh true url st2 rem2 := by
      simp [compile_frame_loop]
    rw [h1, h]
    simp [compile_frame_loop]
  · intro S P f url st st' evs rem a1 h
    have h1 : compile_frame_loop P (f + 2) false false url st
        (XmlEvent.start "Head" a1 :: evs) =
        match compile_head_loop P (f + 1) url st evs with
        | .error e => .error e
        | .ok (st2, rem2) => compile_frame_loop P (f + 1) true false url st2 rem2 := by
      simp [compile_frame_loop]
    rw [h1, h]
    simp [compile_frame_loop]

/-- Witness for C5 at concrete event streams: a document with a second
`Frame` after a complete first one, a `Frame` with two `Body` elements, and
a `Frame` holding only a `Head`, each abort with the corresponding panic. -/
theorem compile_structural_aborts_witness :
    compile_root_loop trivialExt 8 false "file:///doc" initCtx
        [XmlEvent.start "Frame" [], XmlEvent.start "Body" [], XmlEvent.endTag,
         XmlEvent.endTag, XmlEvent.start "Frame" []] =
      .error CompileAbort.dupFrame ∧
    compile_frame_loop trivialExt 3 false false "file:///doc" initCtx
        [XmlEvent.start "Body" [], XmlEvent.endTag, XmlEvent.start "Body" []] =
      .error CompileAbort.dupBody ∧
    compile_frame_loop trivialExt 3 false false "file:///doc" initCtx
        [XmlEvent.start "Head" [], XmlEvent.endTag, XmlEvent.endTag] =
      .error CompileAbort.noBody :=
  ⟨compile_structural_aborts.1 Unit trivialExt 6 "file:///doc" initCtx initCtx
      [XmlEvent.start "Body" [], XmlEvent.endTag, XmlEvent.endTag,
       XmlEvent.start "Frame" []] [] [] [] rfl,
   compile_structural_aborts.2.1 Unit trivialExt 1 "file:///doc" initCtx initCtx
      [XmlEvent.endTag, XmlEvent.start "Body" []] [] [] [] false rfl,
   compile_structural_aborts.2.2 Unit trivialExt 1 "file:///doc" initCtx initCtx
      [XmlEvent.endTag, XmlEvent.endTag] [] [] rfl⟩

/-- C7: for a self-closing `Style` element with no `type` attribute, the
style type is inferred from the `src` filename's final two dot-segments —
with at least two segments, a final `css` yields CSS, `sass` yields Sass,
anything else yields SCSS; with fewer than two segments SCSS — and an
inline `Style` element with no `type` attribute defaults to SCSS. -/
theorem style_type_inference :
    (∀ fname : String,
        (2 ≤ (splitOnChar '.' fname.data).length →
          ((splitOnChar '.' fname.data).getLastD [] = "css".data →
            infer_style_type fname = StyleType.CSS) ∧
          ((splitOnChar '.' fname.data).getLastD [] = "sass".data →
            infer_style_type fname = StyleType.Sass) ∧
          ((splitOnChar '.' fname.data).getLastD [] ≠ "css".data →
            (splitOnChar '.' fname.data).getLastD [] ≠ "sass".data →
            infer_style_type fname = StyleType.SCSS)) ∧
        ((splitOnChar '.' fname.data).length < 2 →
          infer_style_type fname = StyleType.SCSS)) ∧
    (∀ (attrs : List (String × String)) (s : StyleAttrState)
        (f : String → String) (src : String),
        style_attrs_loop true attrs ⟨none, none, []⟩ = .ok s → s.ty = none →
        s.src = some src →
        compile_style_ty true attrs f = .ok (infer_style_type (f src), s)) ∧
    (∀ (attrs : List (String × String)) (s : StyleAttrState) (f : String → String),
        style_attrs_loop false attrs ⟨none, none, []⟩ = .ok s → s.ty = none →
        compile_style_ty false attrs f = .ok (StyleType.SCSS, s)) := by
  refine ⟨?_, ?_, ?_⟩
  · intro fname
    cases hrev : (splitOnChar '.' fname.data).reverse with
    | nil =>
      have hlen : (splitOnChar '.' fname.data).length = 0 := by
        have := congrArg List.length hrev
        simpa using this
      constructor
      · intro h2
        rw [hlen] at h2
        simp at h2
      · intro _
        simp [infer_style_type, hrev]
    | cons ext rest =>
      have hlen : (splitOnChar '.' fname.data).length = rest.length + 1 := by
        have := congrArg List.length hrev
        simpa using this
      have hlast : (splitOnChar '.' fname.data).getLastD [] = ext := by
        have hh : (splitOnChar '.' fname.data).getLast? = some ext := by
          rw [← List.head?_reverse, hrev]
          rfl
        rw [List.getLastD_eq_getLast?, hh]
        rfl
      constructor
      · intro h2
        have hrest : rest.isEmpty = false := by
          cases rest with
          | nil =>
            rw [hlen] at h2
            simp at h2
          | cons a l => rfl
        refine ⟨?_, ?_, ?_⟩
        · intro hcss
          rw [hlast] at hcss
          simp [infer_style_type, hrev, hrest, hcss]
        · intro hsass
          rw [hlast] at hsass
          simp [infer_style_type, hrev, hrest, hsass]
        · intro hncss hnsass
          rw [hlast] at hncss hnsass
          simp [infer_style_type, hrev, hrest, hncss, hnsass]
      · intro hlt
        rw [hlen] at hlt
        have : rest = [] := List.length_eq_zero.mp (by omega)
        subst this
        simp [infer_style_type, hrev]
  · intro attrs s f src hloop hty hsrc
    simp [compile_style_ty, hloop, hty, hsrc]
  · intro attrs s f hloop hty
    simp [compile_style_ty, hloop, hty]

/-- Witness for C7 at the spec's three `src` examples and at an inline
element with no attributes. -/
theorem style_type_inference_witness :
    infer_style_type "a.b.scss" = StyleType.SCSS ∧
    compile_style_ty true [("src", "a.css")] id =
      .ok (StyleType.CSS, ⟨some "a.css", none, []⟩) ∧
    compile_style_ty true [("src", "noext")] id =
      .ok (StyleType.SCSS, ⟨some "noext", none, []⟩) ∧
    compile_style_ty false [] id = .ok (StyleType.SCSS, ⟨none, none, []⟩) :=
  ⟨((style_type_inference.1 "a.b.scss").1 (by decide)).2.2 (by decide) (by decide),
   style_type_inference.2.1 [("src", "a.css")] ⟨some "a.css", none, []⟩ id "a.css"
     rfl rfl rfl,
   style_type_inference.2.1 [("src", "noext")] ⟨some "noext", none, []⟩ id "noext"
     rfl rfl rfl,
   style_type_inference.2.2 [] ⟨none, none, []⟩ id rfl rfl⟩

/-- Only `unimplemented!()` ever aborts the `type` value match. -/
theorem parse_style_type_error_eq {v : String} {e : CompileAbort}
    (h : parse_style_type v = Except.error e) : e = CompileAbort.typeUnimplemented := by
  unfold parse_style_type at h
  split at h
  · cases h
  · cases h
  · cases h
  · injection h with h
    exact h.symm

/-- C8 counterexample: a self-closing `Style` with `type="less"` aborts
compilation with the `unimplemented!()` panic instead of recording an
Info-level invalid-attribute diagnostic and continuing. -/
theorem style_unknown_type_value_aborts_cex :
    compile_style_ty true [("src", "a.css"), ("type", "less")] id =
      Except.error CompileAbort.typeUnimplemented := by
  rfl

/-- C8 (amended): a `Style` element's `type` attribute with any value other
than css/sass/scss (case-insensitively) aborts compilation via
`unimplemented!()` — no diagnostic is recorded for it — while an
unrecognized attribute NAME records the Info-level invalid-attribute
diagnostic and processing continues. -/
theorem style_attr_handling :
    (∀ (empty : Bool) (attrs : List (String × String)) (s0 : StyleAttrState),
        (∃ p ∈ attrs, p.1 = "type" ∧ to_lowercase p.2 ≠ "css" ∧
          to_lowercase p.2 ≠ "sass" ∧ to_lowercase p.2 ≠ "scss") →
        style_attrs_loop empty attrs s0 = .error CompileAbort.typeUnimplemented) ∧
    (∀ (empty : Bool) (k v : String) (attrs : List (String × String))
        (s0 : StyleAttrState),
        ¬(empty = true ∧ k = "src") → k ≠ "type" →
        style_attrs_loop empty ((k, v) :: attrs) s0 =
          style_attrs_loop empty attrs
            { s0 with diags := s0.diags ++
                [(Level.info, DiagnosticData.InvalidAttribute k "Style")] }) := by
  constructor
  · intro empty attrs
    induction attrs with
    | nil =>
      intro s0 hex
      obtain ⟨p, hp, -⟩ := hex
      cases hp
    | cons kv rest ih =>
      intro s0 hex
      obtain ⟨p, hp, hty, h1, h2, h3⟩ := hex
      obtain ⟨k, v⟩ := kv
      rcases List.mem_cons.mp hp with rfl | hmem
      · have hk : k = "type" := hty
        subst hk
        have hpt : parse_style_type v = .error .typeUnimplemented := by
          unfold parse_style_type
          split
          · simp_all
          · simp_all
          · simp_all
          · rfl
        simp [style_attrs_loop, hpt]
      · by_cases hks : empty = true ∧ k = "src"
        · simp only [style_attrs_loop, if_pos hks]
          exact ih _ ⟨p, hmem, hty, h1, h2, h3⟩
        · by_cases hkt : k = "type"
          · cases hparse : parse_style_type v with
            | error e =>
              rw [parse_style_type_error_eq hparse] at hparse
              simp [style_attrs_loop, hks, hkt, hparse]
            | ok t =>
              simp only [style_attrs_loop, if_neg hks, if_pos hkt, hparse]
              exact ih _ ⟨p, hmem, hty, h1, h2, h3⟩
          · simp only [style_attrs_loop, if_neg hks, if_neg hkt]
            exact ih _ ⟨p, hmem, hty, h1, h2, h3⟩
  · intro empty k v attrs s0 hks hkt
    simp [style_attrs_loop, hks, hkt]

/-- Witness for C8 (amended): `type="less"` aborts; an unknown attribute
name `foo` is recorded as an Info diagnostic and processing continues. -/
theorem style_attr_handling_witness :
    style_attrs_loop true [("type", "less")] ⟨none, none, []⟩ =
      .error CompileAbort.typeUnimplemented ∧
    style_attrs_loop true [("foo", "bar")] ⟨none, none, []⟩ =
      style_attrs_loop true []
        ⟨none, none, [(Level.info, DiagnosticData.InvalidAttribute "foo" "Style")]⟩ :=
  ⟨style_attr_handling.1 true [("type", "less")] ⟨none, none, []⟩ (by decide),
   style_attr_handling.2 true "foo" "bar" [] ⟨none, none, []⟩ (by decide) (by decide)⟩

end FrameUi
